import Mathlib

/-!
A shallow embedding of the task-tracking core of the sps repository
(src/api.py, src/workers.py, src/model.py), together with theorems that
settle the frozen claims about its specification.

Modelling conventions:
* Identifiers (domain, task and user identifiers) are embedded as natural
  numbers; the source compares identifiers only by equality.
* The GAE datastore of one deployment is a `State`: the list of all tasks,
  the per-task `TaskIndex` and `AssigneeIndex` entities (keyed by task
  identifier), and the pending background-job queues.  Task identifiers are
  assumed unique across the store (`WF`), matching datastore keys.
* A transaction (`db.run_in_transaction`) is embedded as a pure function of
  the state that either returns a new state or an error; an exception rolls
  the whole transaction back, so on an error the state is unchanged.
  The process-wide task memory store (`_get_task_from_memory`) exists to
  give read-your-writes semantics inside a transaction; here writes are
  threaded through the state eagerly, which has the same effect.
* Python exceptions become `Err` values: `ValueError` with its message
  string, `AttributeError` for an attribute access on `None`, and
  `outOfFuel` for an unbounded loop exceeding its fuel (the source's
  upward walks, bounded in practice by the finite task store).
* `model.py` in the snapshot is newer than `api.py`/`workers.py`: it lacks
  the `AssigneeIndex` class and the `number_of_subtasks`,
  `remaining_subtasks`, `level`, `assignee_index_sequence` fields and the
  `increment_incomplete_subtasks`/`decrement_incomplete_subtasks` methods
  that `api.py` relies on.  Those members are modelled from the spec where
  noted; everything else is translated from the source.
* Presentation-only fields (creation time, duration, baked assignee
  description, derived size) are not used by any embedded code path and
  are omitted.
-/

namespace Sps

/-- A user (model.py, class User): identifier, the legacy per-user admin
flag, and the identifiers of the domains the user is a member of. -/
structure User where
  id : Nat
  admin : Bool
  domains : List Nat
deriving DecidableEq, Repr

/-- A domain (model.py, class Domain): identifier and the list of user
identifiers with admin rights in this domain. -/
structure Domain where
  id : Nat
  admins : List Nat
deriving DecidableEq, Repr

/-- A task (model.py, class Task, at the revision api.py is written
against).  `numberOfSubtasks`, `remainingSubtasks`, `level` and
`assigneeIndexSequence` are the counter fields that api.py/workers.py
read and write; they are integers because Python integers are unbounded
and the source decrements them without a lower-bound check. -/
structure Task where
  id : Nat
  domain : Nat
  description : String
  userId : Nat
  assignee : Option Nat
  parentTask : Option Nat
  completed : Bool
  numberOfSubtasks : Int
  remainingSubtasks : Int
  level : Int
  assigneeIndexSequence : Nat
deriving DecidableEq, Repr

/-- model.py Task.atomic: a task is atomic iff its number of subtasks
is zero. -/
def Task.atomic (t : Task) : Bool :=
  t.numberOfSubtasks == 0

/-- The TaskIndex (model.py, class TaskIndex): the materialized list of
ancestor identifiers of a task, root first, and its length. -/
structure TaskIndex where
  hierarchy : List Nat
  level : Nat
deriving DecidableEq, Repr

/-- Modelled from the spec: the AssigneeIndex class is referenced by
workers.py but missing from the snapshot's model.py.  Per spec section 4.5
it stores per-assignee reference counts, the derived assignee set, the
derived size of that set, and the next expected delta sequence number
(starting at 0 for a fresh index). -/
structure AssigneeIndex where
  sequence : Nat
  referenceCounts : List (Nat × Nat)
  assignees : List Nat
  assigneeCount : Nat
deriving DecidableEq, Repr

/-- A fresh AssigneeIndex, as built by workers.py _get_index when no index
entity exists yet. -/
def emptyAssigneeIndex : AssigneeIndex :=
  { sequence := 0, referenceCounts := [], assignees := [], assigneeCount := 0 }

/-- A pending assignee-index delta on the update-assignee-index queue
(workers.py, UpdateAssigneeIndex.queue_worker params dict). -/
structure AssigneeDelta where
  domain : Nat
  taskId : Nat
  sequence : Nat
  addAssignee : Option Nat
  removeAssignee : Option Nat
deriving DecidableEq, Repr

/-- A pending hierarchy-index job on the update-task-index queue
(workers.py, UpdateTaskIndex.queue_worker params dict):
domain, task identifier, force flag. -/
structure HierJob where
  domain : Nat
  taskId : Nat
  force : Bool
deriving DecidableEq, Repr

/-- The datastore plus job queues of one deployment. -/
structure State where
  tasks : List Task
  taskIndices : List (Nat × TaskIndex)
  assigneeIndices : List (Nat × AssigneeIndex)
  assigneeQueue : List AssigneeDelta
  hierQueue : List HierJob
  bakeQueue : List Nat
deriving DecidableEq, Repr

/-- Python exceptions raised by the embedded code. -/
inductive Err where
  | valueError (msg : String)
  | attributeError
  | outOfFuel
deriving DecidableEq, Repr

/-! ### Association-list helpers (Python dict / keyed entities) -/

/-- Lookup of the first binding of a key. -/
def alookup (k : Nat) : List (Nat × α) → Option α
  | [] => none
  | (k', v) :: rest => if k' = k then some v else alookup k rest

/-- Insert-or-replace of a binding. -/
def aupsert (k : Nat) (v : α) : List (Nat × α) → List (Nat × α)
  | [] => [(k, v)]
  | (k', v') :: rest => if k' = k then (k, v) :: rest else (k', v') :: aupsert k v rest

/-- Removing a key (Python dict del). -/
def aerase (k : Nat) (l : List (Nat × α)) : List (Nat × α) :=
  l.filter (fun p => p.1 ≠ k)

/-! ### Store operations -/

/-- api.py get_task / _get_task_from_memory: the task of the given domain
with the given identifier, or none when the identifier is none or no such
task exists. -/
def getTask (tasks : List Task) (dom : Nat) (tid : Option Nat) : Option Task :=
  tid.bind fun i => tasks.find? fun t => t.domain == dom && t.id == i

/-- Task.put(): replace the entity with the same key, or store a new
entity. -/
def putTask (tasks : List Task) (t : Task) : List Task :=
  if tasks.any fun u => u.id == t.id then
    tasks.map fun u => if u.id == t.id then t else u
  else
    tasks ++ [t]

/-- Well-formedness of the store: task identifiers are datastore keys, so
they are unique. -/
def WF (tasks : List Task) : Prop :=
  (tasks.map Task.id).Nodup

/-! ### Membership and authorization (api.py) -/

/-- api.py member_of_domain for a single user: true iff the domain is in
the user's domain list. -/
def member_of_domain (dom : Nat) (user : User) : Bool :=
  dom ∈ user.domains

/-- api.py admin_of_domain: the user is a member of the domain and the
Domain entity lists the user among its admins. -/
def admin_of_domain (doms : List Domain) (dom : Nat) (user : User) : Bool :=
  member_of_domain dom user &&
    (match doms.find? fun d => d.id == dom with
     | some d => user.id ∈ d.admins
     | none => false)

/-- api.py can_complete_task: the task is atomic and the user is its
assignee. -/
def can_complete_task (task : Task) (user : User) : Bool :=
  task.atomic && task.assignee == some user.id

/-- api.py can_assign_task: raises ValueError when user and assignee are
not both members of the task's domain; otherwise the task must be atomic
and the user must be the current assignee, or self-assign a task without
assignee, or carry the legacy per-user admin flag. -/
def can_assign_task (task : Task) (user : User) (assignee : User) : Except Err Bool :=
  if ¬(member_of_domain task.domain user ∧ member_of_domain task.domain assignee) then
    .error (.valueError "User and assignee not in the same domain")
  else if ¬task.atomic then .ok false
  else if task.assignee = some user.id then .ok true
  else if task.assignee = none ∧ user.id = assignee.id then .ok true
  else if user.admin then .ok true
  else .ok false

/-! ### Completion counters and propagation (api.py) -/

/-- Modelled from the spec: Task.increment_incomplete_subtasks is called
by api.py but missing from the snapshot's model.py.  Per spec section 4.3
the remaining-count is adjusted by +1 and the invariant of section 3
(a composite task is completed iff its remaining-count is 0) makes the
task incomplete. -/
def increment_incomplete_subtasks (t : Task) : Task :=
  { t with remainingSubtasks := t.remainingSubtasks + 1, completed := false }

/-- Modelled from the spec: Task.decrement_incomplete_subtasks is called
by api.py but missing from the snapshot's model.py.  Per spec section 4.3
the remaining-count is adjusted by -1 and by the invariant of section 3
the task is completed exactly when the remaining-count reaches 0. -/
def decrement_incomplete_subtasks (t : Task) : Task :=
  { t with remainingSubtasks := t.remainingSubtasks - 1,
           completed := t.remainingSubtasks - 1 == 0 }

/-- The while-loop of api.py _propagate_completion: walks up the parent
chain from the given parent, decrementing (when the originating task
became complete) or incrementing (when it became incomplete) each
ancestor's remaining-count, and continues only while the ancestor's own
completed flag changed.  `completed` is the originating task's new flag,
read once before the loop.  Returns the updated task store and the list
of ancestor identifiers that were re-evaluated, or none when the fuel
runs out (the Python loop has no bound of its own). -/
def propLoop : Nat → List Task → Nat → Bool → Option Task → Option (List Task × List Nat)
  | _, tasks, _, _, none => some (tasks, [])
  | 0, _, _, _, some _ => none
  | fuel+1, tasks, dom, completed, some parent =>
    let step :=
      if completed then
        let p := decrement_incomplete_subtasks parent
        (p, p.completed)
      else
        let p := increment_incomplete_subtasks parent
        (p, p.completed != parent.completed)
    let tasks1 := putTask tasks step.1
    let next := if step.2 then getTask tasks1 dom step.1.parentTask else none
    (propLoop fuel tasks1 dom completed next).map fun r => (r.1, step.1.id :: r.2)

/-- api.py _propagate_completion: propagate the completed flag of `task`
to its ancestors, starting from its parent. -/
def propagate_completion (fuel : Nat) (tasks : List Task) (dom : Nat) (task : Task) :
    Option (List Task × List Nat) :=
  propLoop fuel tasks dom task.completed (getTask tasks dom task.parentTask)

/-- api.py set_task_completed: the transaction body.  Returns the new
state, the returned task and the list of ancestors re-evaluated by the
propagation; an exception rolls the transaction back. -/
def set_task_completed (st : State) (dom : Nat) (user : User) (tid : Nat)
    (completed : Bool) : Except Err (State × Task × List Nat) :=
  match getTask st.tasks dom (some tid) with
  | none => .error (.valueError "Invalid task")
  | some task =>
    if ¬task.atomic ∨ ¬can_complete_task task user then
      .error (.valueError "Invalid task")
    else if task.completed = completed then
      .ok (st, task, [])
    else
      let task1 := { task with completed := completed }
      let tasks1 := putTask st.tasks task1
      match propagate_completion (st.tasks.length + 1) tasks1 dom task1 with
      | none => .error .outOfFuel
      | some (tasks2, visited) => .ok ({ st with tasks := tasks2 }, task1, visited)

/-! ### Cycle check and reparenting (api.py) -/

/-- The while-loop of api.py _check_for_cycle: walk up the parent chain
from `cur`, returning false as soon as a task identifier is met twice
(the assignment would create a cycle) and true when the chain ends, at a
root or at a dangling parent reference.  Each visited identifier is added
to `visited` before moving up.  Returns none when the fuel runs out; the
Python loop has no bound of its own, termination on a finite store is
proved below. -/
def cycleWalk : Nat → List Task → Nat → List Nat → Option Task → Option Bool
  | _, _, _, _, none => some true
  | 0, _, _, _, some _ => none
  | fuel+1, tasks, dom, visited, some cur =>
    if cur.id ∈ visited then some false
    else cycleWalk fuel tasks dom (cur.id :: visited) (getTask tasks dom cur.parentTask)

/-- api.py _check_for_cycle: the attribute access
new_parent.domain_identifier() on the first line raises AttributeError
when new_parent is None, despite the docstring promising True for None;
with a task, domains are compared and the upward walk runs with the
visited set seeded with the moved task's identifier.  Returns false when
the assignment would create a cycle. -/
def check_for_cycle (tasks : List Task) (task : Task) : Option Task → Except Err Bool
  | none => .error .attributeError
  | some newParent =>
    if ¬(task.domain = newParent.domain) then
      .error (.valueError "Tasks must be in the same domain")
    else
      match cycleWalk (tasks.length + 1) tasks task.domain [task.id] (some newParent) with
      | some b => .ok b
      | none => .error .outOfFuel

/-- api.py _update_task_levels: set the task's level and shift every task
whose TaskIndex hierarchy contains the task (its indexed descendants, in
the same domain) by the same difference. -/
def update_task_levels (st : State) (dom : Nat) (task : Task) (level : Int) : State :=
  if task.level = level then st
  else
    let difference := level - task.level
    let task1 := { task with level := level }
    let tasks1 := putTask st.tasks task1
    let subIds := (st.taskIndices.filter fun p => task.id ∈ p.2.hierarchy).map Prod.fst
    let tasks2 := tasks1.map fun t =>
      if t.domain == dom && t.id ∈ subIds && t.id != task1.id then
        { t with level := t.level + difference }
      else t
    { st with tasks := tasks2 }

/-- workers.py UpdateAssigneeIndex.queue_worker: a no-op when the added
and removed assignee coincide (both None included); otherwise hands out
the task's current assignee-index sequence number, increments and stores
the counter, and enqueues the delta, all in the enclosing transaction.
Returns the updated state and the updated task instance. -/
def queue_assignee_worker (st : State) (task : Task)
    (addAssignee removeAssignee : Option Nat) : State × Task :=
  if addAssignee = removeAssignee then (st, task)
  else
    let sequence := task.assigneeIndexSequence
    let task1 := { task with assigneeIndexSequence := sequence + 1 }
    ({ st with
        tasks := putTask st.tasks task1,
        assigneeQueue := st.assigneeQueue ++
          [{ domain := task.domain, taskId := task.id, sequence := sequence,
             addAssignee := addAssignee, removeAssignee := removeAssignee }] },
     task1)

/-- workers.py UpdateTaskIndex.queue_worker: enqueue a hierarchy-index
job. -/
def queue_hier_worker (st : State) (dom : Nat) (tid : Nat) (force : Bool) : State :=
  { st with hierQueue := st.hierQueue ++ [{ domain := dom, taskId := tid, force := force }] }

/-- The remove_task_from_parent closure of api.py change_task_parent:
detach `task` from `parent`, adjusting the parent's subtask counters and
completed flag, and propagate when the flag changed relative to the
point after the counter adjustment.  Returns none on propagation fuel
exhaustion. -/
def remove_task_from_parent (fuel : Nat) (st : State) (dom : Nat)
    (task parent : Task) : Option (State × Task) :=
  let parent1 := { parent with numberOfSubtasks := parent.numberOfSubtasks - 1 }
  let parent2 := if ¬task.completed then decrement_incomplete_subtasks parent1 else parent1
  let parentWasCompleted := parent2.completed
  let parent3 :=
    if parent2.completed ∧ parent2.numberOfSubtasks = 0 then
      { parent2 with completed := false }
    else parent2
  let parent4 :=
    if ¬parent3.completed ∧ parent3.remainingSubtasks = 0 ∧ 0 < parent3.numberOfSubtasks then
      { parent3 with completed := true }
    else parent3
  let tasks1 := putTask st.tasks parent4
  if parent4.completed ≠ parentWasCompleted then
    match propLoop fuel tasks1 dom parent4.completed (getTask tasks1 dom parent4.parentTask) with
    | none => none
    | some (tasks2, _) => some ({ st with tasks := tasks2 }, parent4)
  else some ({ st with tasks := tasks1 }, parent4)

/-- The add_task_to_parent closure of api.py change_task_parent: attach
`task` to `parent`, adjusting the parent's counters and completed flag,
and propagate when the flag changed. -/
def add_task_to_parent (fuel : Nat) (st : State) (dom : Nat)
    (task parent : Task) : Option (State × Task) :=
  let parent1 := { parent with numberOfSubtasks := parent.numberOfSubtasks + 1 }
  let parentWasCompleted := parent1.completed
  let parent2 := if ¬task.completed then increment_incomplete_subtasks parent1 else parent1
  let parent3 :=
    if parent2.remainingSubtasks = 0 then { parent2 with completed := true } else parent2
  let tasks1 := putTask st.tasks parent3
  if parent3.completed ≠ parentWasCompleted then
    match propLoop fuel tasks1 dom parent3.completed (getTask tasks1 dom parent3.parentTask) with
    | none => none
    | some (tasks2, _) => some ({ st with tasks := tasks2 }, parent3)
  else some ({ st with tasks := tasks1 }, parent3)

/-- api.py change_task_parent: membership check, creator-or-domain-admin
authorization, cycle check, detach from the old parent, attach to the
new parent, level update over the indexed descendants, hierarchy-index
job enqueue.  The task lookup mirrors the source: a missing task leads
to an attribute access on None. -/
def change_task_parent (doms : List Domain) (st : State) (dom : Nat) (user : User)
    (tid : Nat) (newParentId : Option Nat) : Except Err (State × Task) :=
  if ¬member_of_domain dom user then
    .error (.valueError "User is not a member of the domain")
  else
    let userIsAdmin := admin_of_domain doms dom user
    match getTask st.tasks dom (some tid) with
    | none => .error .attributeError
    | some task =>
      let newParent := getTask st.tasks dom newParentId
      if ¬(task.userId = user.id) ∧ ¬userIsAdmin then
        .error (.valueError "User did not create task")
      else
        match check_for_cycle st.tasks task newParent with
        | .error e => .error e
        | .ok false => .error (.valueError "Cycle detected")
        | .ok true =>
          let fuel := st.tasks.length + 1
          let detach : Option State :=
            match getTask st.tasks dom task.parentTask with
            | none => some st
            | some parent =>
              match remove_task_from_parent fuel st dom task parent with
              | none => none
              | some (st1, parent1) =>
                some (queue_assignee_worker st1 parent1 none task.assignee).1
          match detach with
          | none => .error .outOfFuel
          | some st2 =>
            -- the new parent is re-read after the detach updates, as the
            -- transaction memory store returns the updated instance
            let attach : Option (State × Task × Int) :=
              match getTask st2.tasks dom newParentId with
              | none => some (st2, { task with parentTask := none }, 0)
              | some np =>
                let task1 := { task with parentTask := some np.id }
                match add_task_to_parent fuel st2 dom task1 np with
                | none => none
                | some (st3, np1) =>
                  some ((queue_assignee_worker st3 np1 task.assignee none).1,
                        task1, np1.level + 1)
            match attach with
            | none => .error .outOfFuel
            | some (st4, task1, level) =>
              let st5 := update_task_levels st4 dom task1 level
              let task2 := { task1 with level := level }
              let st6 := queue_hier_worker st5 dom task2.id false
              .ok ({ st6 with tasks := putTask st6.tasks task2 }, task2)

/-- The committed state of a change_task_parent call: the transaction
rolls back on any exception, leaving the store unchanged. -/
def apply_change_task_parent (doms : List Domain) (st : State) (dom : Nat)
    (user : User) (tid : Nat) (newParentId : Option Nat) : State :=
  match change_task_parent doms st dom user tid newParentId with
  | .ok (st', _) => st'
  | .error _ => st

/-! ### Task creation and assignment (api.py) -/

/-- api.py assign_task: the transaction body; looks the task up, checks
can_assign_task, sets the assignee, enqueues the assignee-index delta
for the task itself and stores the task. -/
def assign_task (st : State) (dom : Nat) (tid : Nat) (user assignee : User) :
    Except Err (State × Task) :=
  match getTask st.tasks dom (some tid) with
  | none => .error (.valueError "Task does not exist")
  | some task =>
    match can_assign_task task user assignee with
    | .error e => .error e
    | .ok false => .error (.valueError "Cannot assign")
    | .ok true =>
      let previousAssignee := task.assignee
      let task1 := { task with assignee := some assignee.id }
      let st1 := { st with tasks := putTask st.tasks task1 }
      let (st2, task2) := queue_assignee_worker st1 task1 (some assignee.id) previousAssignee
      .ok (st2, task2)

/-- api.py create_task: membership checks, then a transaction that looks
the optional parent up (a missing parent identifier silently resolves to
None), creates the task, updates the parent's counters with propagation,
and enqueues the hierarchy-index job; after the transaction commits, a
given assignee triggers assign_task (which the source calls with the
creator as both operator and assignee).  `newId` is the fresh datastore
key id of the created task.  The committed state is returned even when
the post-transaction assignment step fails. -/
def create_task (st : State) (dom : Nat) (user : User) (description : String)
    (assignee : Option User) (parentTask : Option Nat) (newId : Nat) :
    State × Except Err Task :=
  if ¬member_of_domain dom user then
    (st, .error (.valueError "User not a member of domain"))
  else if assignee.any fun a => !(member_of_domain dom user && member_of_domain dom a) then
    (st, .error (.valueError "Assignee and user domain do not match"))
  else
    let superTask := getTask st.tasks dom parentTask
    let task : Task :=
      { id := newId, domain := dom, description := description, userId := user.id,
        assignee := none,
        parentTask := superTask.map Task.id,
        completed := false, numberOfSubtasks := 0, remainingSubtasks := 0,
        level := (match superTask with | some s => s.level + 1 | none => 0),
        assigneeIndexSequence := 0 }
    let parentStep : Option (List Task) :=
      match superTask with
      | none => some st.tasks
      | some s =>
        let completed := s.completed
        let s1 := { s with numberOfSubtasks := s.numberOfSubtasks + 1 }
        let s2 := increment_incomplete_subtasks s1
        let tasks1 := putTask st.tasks s2
        if completed != s2.completed then
          match propLoop (st.tasks.length + 1) tasks1 dom s2.completed
              (getTask tasks1 dom s2.parentTask) with
          | none => none
          | some (tasks2, _) => some tasks2
        else some tasks1
    match parentStep with
    | none => (st, .error .outOfFuel)
    | some tasksA =>
      let st1 := queue_hier_worker { st with tasks := putTask tasksA task } dom task.id false
      match assignee with
      | none => (st1, .ok task)
      | some _ =>
        match assign_task st1 dom task.id user user with
        | .ok (st2, _) => (st2, .ok task)
        | .error e => (st1, .error e)

/-! ### The hierarchy-index worker (workers.py UpdateTaskIndex) -/

/-- Symmetric difference of two identifier lists viewed as sets, as in
the source's truthiness test of set(index.hierarchy) ^ set(hierarchy):
true iff the two lists differ as sets. -/
def hierSetDiff (a b : List Nat) : Bool :=
  !((a.all fun x => x ∈ b) && (b.all fun x => x ∈ a))

/-- Outcome of one hierarchy-index job. -/
inductive TOutcome where
  | noTask
  | retryMissingParent
  | updated
  | unchanged
deriving DecidableEq, Repr

/-- The state written by an updating hierarchy-index job: the task's
index is replaced by the new hierarchy with its length as level, and a
job is enqueued for every direct child of the task in the domain. -/
def hierWriteState (st : State) (dom : Nat) (tid : Nat) (hierarchy : List Nat)
    (force : Bool) : State :=
  let st1 := { st with
    taskIndices := aupsert tid { hierarchy := hierarchy, level := hierarchy.length }
      st.taskIndices }
  { st1 with
    hierQueue := st1.hierQueue ++
      ((st.tasks.filter fun t => t.domain == dom && t.parentTask == some tid).map
        fun c => { domain := dom, taskId := c.id, force := force }) }

/-- workers.py UpdateTaskIndex.post: recompute the task's hierarchy from
the parent's index; retry when the parent has no index yet; write the
index and fan out to the direct children exactly when the force flag is
set, the task has no index yet, or the stored and computed hierarchies
differ as sets (the source compares set(index.hierarchy) with
set(hierarchy)). -/
def updateTaskIndexPost (st : State) (dom : Nat) (tid : Nat) (force : Bool) :
    TOutcome × State :=
  match getTask st.tasks dom (some tid) with
  | none => (.noTask, st)
  | some task =>
    let indexOpt := alookup tid st.taskIndices
    let index := indexOpt.getD { hierarchy := [], level := 0 }
    let newIndex := indexOpt.isNone
    match task.parentTask with
    | some pid =>
      (match alookup pid st.taskIndices with
       | none => (.retryMissingParent, st)
       | some parentIndex =>
         let hierarchy := parentIndex.hierarchy ++ [pid]
         if force || newIndex || hierSetDiff index.hierarchy hierarchy then
           (.updated, hierWriteState st dom tid hierarchy force)
         else (.unchanged, st))
    | none =>
      let hierarchy : List Nat := []
      if force || newIndex || hierSetDiff index.hierarchy hierarchy then
        (.updated, hierWriteState st dom tid hierarchy force)
      else (.unchanged, st)

/-! ### The assignee-index worker (workers.py UpdateAssigneeIndex) -/

/-- The removal half of the update_reference_count closure of
UpdateAssigneeIndex.post: decrement the removed assignee's count when it
is present and positive (an attempt to decrement 0 is logged and
tolerated). -/
def decrement_reference (counts : List (Nat × Nat)) : Option Nat → List (Nat × Nat)
  | some r =>
    (alookup r counts).elim counts fun c =>
      if 0 < c then aupsert r (c - 1) counts else counts
  | none => counts

/-- The update_reference_count closure of UpdateAssigneeIndex.post:
decrement the removed assignee's count, then increment the added
assignee's count. -/
def update_reference_count (counts : List (Nat × Nat))
    (addAssignee removeAssignee : Option Nat) : List (Nat × Nat) :=
  let counts1 := decrement_reference counts removeAssignee
  match addAssignee with
  | some a => aupsert a ((alookup a counts1).getD 0 + 1) counts1
  | none => counts1

/-- The in-sequence core of UpdateAssigneeIndex.post: update the
reference counts, add the added assignee to the assignee set when its
count became exactly 1 (propagating the add), delete the removed
assignee from the counts and the assignee set when its count reached
exactly 0 (propagating the remove), and advance the sequence.  Returns
the new index and the propagated add/remove, or none when
index.assignees.remove would raise ValueError (the removed assignee
absent from the assignee list). -/
def applyAssigneeDelta (index : AssigneeIndex) (addAssignee : Option Nat) :
    Option Nat → Option (AssigneeIndex × Option Nat × Option Nat)
  | some r =>
    let counts := update_reference_count index.referenceCounts addAssignee (some r)
    let propagateAdd := addAssignee.bind fun a =>
      if alookup a counts = some 1 then some a else none
    let assignees1 := index.assignees ++ propagateAdd.toList
    if alookup r counts = some 0 then
      if r ∈ assignees1 then
        let assignees2 := assignees1.erase r
        some ({ sequence := index.sequence + 1, referenceCounts := aerase r counts,
                assignees := assignees2, assigneeCount := assignees2.length },
              propagateAdd, some r)
      else none
    else
      some ({ sequence := index.sequence + 1, referenceCounts := counts,
              assignees := assignees1, assigneeCount := assignees1.length },
            propagateAdd, none)
  | none =>
    let counts := update_reference_count index.referenceCounts addAssignee none
    let propagateAdd := addAssignee.bind fun a =>
      if alookup a counts = some 1 then some a else none
    let assignees1 := index.assignees ++ propagateAdd.toList
    some ({ sequence := index.sequence + 1, referenceCounts := counts,
            assignees := assignees1, assigneeCount := assignees1.length },
          propagateAdd, none)

/-- Outcome of one assignee-index delta delivery. -/
inductive AOutcome where
  | assertFailed
  | noTask
  | retry
  | duplicate
  | applied (changed : Bool)
  | crashed
deriving DecidableEq, Repr

/-- workers.py UpdateAssigneeIndex.post: asserts the added and removed
assignee differ; a delta ahead of the index's expected sequence is a
retryable failure, one behind it is a duplicate no-op; an in-sequence
delta is applied, the index stored, a delta enqueued for the parent task
when a membership transition is propagated, and the bake job enqueued
after the transaction when anything propagated.  A raised exception
(crash) rolls the transaction back. -/
def updateAssigneeIndexPost (st : State) (δ : AssigneeDelta) : AOutcome × State :=
  if δ.addAssignee = δ.removeAssignee then (.assertFailed, st)
  else
    match getTask st.tasks δ.domain (some δ.taskId) with
    | none => (.noTask, st)
    | some task =>
      let index := (alookup δ.taskId st.assigneeIndices).getD emptyAssigneeIndex
      if index.sequence < δ.sequence then (.retry, st)
      else if δ.sequence < index.sequence then (.duplicate, st)
      else
        match applyAssigneeDelta index δ.addAssignee δ.removeAssignee with
        | none => (.crashed, st)
        | some (index1, propagateAdd, propagateRemove) =>
          let st1 := { st with
            assigneeIndices := aupsert δ.taskId index1 st.assigneeIndices }
          let changed := propagateAdd.isSome || propagateRemove.isSome
          match task.parentTask with
          | none =>
            if changed then (.applied true, { st1 with bakeQueue := st1.bakeQueue ++ [task.id] })
            else (.applied false, st1)
          | some pid =>
            match getTask st1.tasks δ.domain (some pid) with
            | none => (.crashed, st)
            | some parentTask =>
              let st2 := (queue_assignee_worker st1 parentTask propagateAdd propagateRemove).1
              if changed then (.applied true, { st2 with bakeQueue := st2.bakeQueue ++ [task.id] })
              else (.applied false, st2)

/-! ### Derived notions used by the theorems -/

/-- The set of task identifiers present in one domain of the store. -/
def idsIn (tasks : List Task) (dom : Nat) : Finset Nat :=
  ((tasks.filter fun t => t.domain == dom).map Task.id).toFinset

/-- `Desc tasks dom c a`: in the given domain of the store, following
stored parent links upward from the task with identifier `c` reaches the
identifier `a` (so the task `c` is a descendant of the task `a`). -/
inductive Desc (tasks : List Task) (dom : Nat) : Nat → Nat → Prop
  | parent (t : Task) (c a : Nat) :
      getTask tasks dom (some c) = some t → t.parentTask = some a → Desc tasks dom c a
  | step (t : Task) (c m a : Nat) :
      getTask tasks dom (some c) = some t → t.parentTask = some m →
      Desc tasks dom m a → Desc tasks dom c a

/-- The membership invariant of an AssigneeIndex: every user with a
reference-count entry is listed in the assignees list (the source
maintains it by construction: an entry appears exactly when the count
leaves 0, and is deleted when it returns to 0). -/
def KeysCovered (index : AssigneeIndex) : Prop :=
  ∀ u c, alookup u index.referenceCounts = some c → u ∈ index.assignees

/-- The task's parent reference, when set, resolves to a task of the
domain in the store (GAE reference dereference would otherwise fail; no
task is ever deleted in this system). -/
def ParentResolvable (st : State) (dom : Nat) (task : Task) : Prop :=
  task.parentTask = none ∨ ∃ p, getTask st.tasks dom task.parentTask = some p

/-! ## Helper lemmas -/

theorem getTask_mem {tasks : List Task} {dom i : Nat} {t : Task}
    (h : getTask tasks dom (some i) = some t) : t ∈ tasks ∧ t.domain = dom ∧ t.id = i := by
  unfold getTask at h
  simp only [Option.some_bind] at h
  refine ⟨List.mem_of_find?_eq_some h, ?_⟩
  have hp := List.find?_some h
  simp only [Bool.and_eq_true, beq_iff_eq] at hp
  exact hp

theorem getTask_mem' {tasks : List Task} {dom : Nat} {o : Option Nat} {t : Task}
    (h : getTask tasks dom o = some t) : t ∈ tasks ∧ t.domain = dom := by
  cases o with
  | none => exact Option.noConfusion h
  | some i => exact ⟨(getTask_mem h).1, (getTask_mem h).2.1⟩

theorem cycleWalk_none (fuel : Nat) (tasks : List Task) (dom : Nat) (visited : List Nat) :
    cycleWalk fuel tasks dom visited none = some true := by
  cases fuel <;> rfl

theorem walk_fuel_sufficient (fuel : Nat) :
    ∀ (tasks : List Task) (dom : Nat) (visited : List Nat) (np : Task),
      np ∈ tasks → np.domain = dom →
      (idsIn tasks dom \ visited.toFinset).card < fuel →
      cycleWalk fuel tasks dom visited (some np) ≠ none := by
  induction fuel with
  | zero => exact fun _ _ _ _ _ _ h => absurd h (Nat.not_lt_zero _)
  | succ n ih =>
    intro tasks dom visited np hmem hdom hcard
    by_cases hv : np.id ∈ visited
    · simp [cycleWalk, hv]
    · have hid : np.id ∈ idsIn tasks dom \ visited.toFinset := by
        simp only [idsIn, Finset.mem_sdiff, List.mem_toFinset, List.mem_map, List.mem_filter]
        exact ⟨⟨np, ⟨hmem, by simp [hdom]⟩, rfl⟩, by simpa using hv⟩
      have hcard' : (idsIn tasks dom \ (np.id :: visited).toFinset).card < n := by
        rw [List.toFinset_cons, Finset.sdiff_insert, Finset.card_erase_of_mem hid]
        have hpos : 0 < (idsIn tasks dom \ visited.toFinset).card :=
          Finset.card_pos.mpr ⟨_, hid⟩
        omega
      simp only [cycleWalk, if_neg hv]
      cases hgt : getTask tasks dom np.parentTask with
      | none => rw [cycleWalk_none]; simp
      | some np1 =>
        exact ih tasks dom (np.id :: visited) np1 (getTask_mem' hgt).1
          (getTask_mem' hgt).2 hcard'

theorem cycleWalk_total (tasks : List Task) (dom : Nat)
    (visited : List Nat) (np : Task) (hmem : np ∈ tasks) (hdom : np.domain = dom) :
    cycleWalk (tasks.length + 1) tasks dom visited (some np) ≠ none := by
  apply walk_fuel_sufficient _ _ _ _ _ hmem hdom
  have h1 : (idsIn tasks dom \ visited.toFinset).card ≤ (idsIn tasks dom).card :=
    Finset.card_le_card Finset.sdiff_subset
  have h2 : (idsIn tasks dom).card ≤ tasks.length := by
    calc (idsIn tasks dom).card
        ≤ ((tasks.filter fun t => t.domain == dom).map Task.id).length :=
          List.toFinset_card_le _
      _ = (tasks.filter fun t => t.domain == dom).length := List.length_map _ _
      _ ≤ tasks.length := List.length_filter_le _ _
  omega

/-! ## C10 -/

/-- C10: the cycle check's upward walk terminates on every finite task
store, including stores whose stored parent links already form a cycle:
with fuel one more than the number of tasks in the store — one step per
distinct task at most, since each iteration either meets an
already-visited identifier (ending the walk with a cycle verdict) or
adds a previously unseen identifier to the visited set — the walk never
exhausts its fuel, for any starting parent in the store and any seeded
visited set. -/
theorem cycle_walk_terminates_on_finite_store (tasks : List Task) (dom : Nat)
    (visited : List Nat) (np : Task) (hmem : np ∈ tasks) (hdom : np.domain = dom) :
    cycleWalk (tasks.length + 1) tasks dom visited (some np) ≠ none :=
  cycleWalk_total tasks dom visited np hmem hdom

/-- Witness for C10 on a store whose two tasks form a parent cycle not
involving the seeded identifier. -/
theorem cycle_walk_terminates_on_finite_store_witness :
    cycleWalk 3
      [{ id := 10, domain := 0, description := "a", userId := 1, assignee := none,
         parentTask := some 11, completed := false, numberOfSubtasks := 0,
         remainingSubtasks := 0, level := 0, assigneeIndexSequence := 0 },
       { id := 11, domain := 0, description := "b", userId := 1, assignee := none,
         parentTask := some 10, completed := false, numberOfSubtasks := 0,
         remainingSubtasks := 0, level := 0, assigneeIndexSequence := 0 }]
      0 [99]
      (some { id := 10, domain := 0, description := "a", userId := 1, assignee := none,
              parentTask := some 11, completed := false, numberOfSubtasks := 0,
              remainingSubtasks := 0, level := 0, assigneeIndexSequence := 0 }) ≠ none :=
  cycle_walk_terminates_on_finite_store
    [{ id := 10, domain := 0, description := "a", userId := 1, assignee := none,
       parentTask := some 11, completed := false, numberOfSubtasks := 0,
       remainingSubtasks := 0, level := 0, assigneeIndexSequence := 0 },
     { id := 11, domain := 0, description := "b", userId := 1, assignee := none,
       parentTask := some 10, completed := false, numberOfSubtasks := 0,
       remainingSubtasks := 0, level := 0, assigneeIndexSequence := 0 }]
    0 [99]
    { id := 10, domain := 0, description := "a", userId := 1, assignee := none,
      parentTask := some 11, completed := false, numberOfSubtasks := 0,
      remainingSubtasks := 0, level := 0, assigneeIndexSequence := 0 }
    (by simp) rfl

/-! ## C1 -/

theorem desc_find {tasks : List Task} {dom c a : Nat} (h : Desc tasks dom c a) :
    ∃ t, getTask tasks dom (some c) = some t := by
  cases h with
  | parent t _ _ hget _ => exact ⟨t, hget⟩
  | step t _ _ _ hget _ _ => exact ⟨t, hget⟩

/-- The upward walk of the cycle check cannot report "no cycle" when it
starts at a stored descendant of an identifier that is already in the
visited set and whose task is present in the store. -/
theorem desc_walk_not_true {tasks : List Task} {dom : Nat} :
    ∀ {x aId : Nat}, Desc tasks dom x aId →
      ∀ (fuel : Nat) (visited : List Nat) (tx : Task),
        (getTask tasks dom (some aId)).isSome → aId ∈ visited →
        getTask tasks dom (some x) = some tx →
        cycleWalk fuel tasks dom visited (some tx) ≠ some true := by
  intro x aId hdesc
  induction hdesc with
  | parent t c a hget hpt =>
    intro fuel visited tx hsome hvis hgx
    rw [hget] at hgx
    cases Option.some.inj hgx
    cases fuel with
    | zero => simp [cycleWalk]
    | succ n =>
      by_cases hv : t.id ∈ visited
      · simp [cycleWalk, hv]
      · simp only [cycleWalk, if_neg hv]
        rw [hpt]
        obtain ⟨target, htar⟩ := Option.isSome_iff_exists.mp hsome
        rw [htar]
        have hmem2 : target.id ∈ t.id :: visited := by
          rw [(getTask_mem htar).2.2]
          exact List.mem_cons_of_mem _ hvis
        cases n with
        | zero => simp [cycleWalk]
        | succ m => simp [cycleWalk, hmem2]
  | step t c m a hget hpt _ ih =>
    intro fuel visited tx hsome hvis hgx
    rw [hget] at hgx
    cases Option.some.inj hgx
    cases fuel with
    | zero => simp [cycleWalk]
    | succ n =>
      by_cases hv : t.id ∈ visited
      · simp [cycleWalk, hv]
      · simp only [cycleWalk, if_neg hv]
        rw [hpt]
        obtain ⟨tm, htm⟩ := desc_find (by assumption)
        rw [htm]
        exact ih n (t.id :: visited) tm hsome (List.mem_cons_of_mem _ hvis) htm

/-- C1: change_task_parent fails with the cycle error — and, the
transaction rolling back, leaves every task unchanged — whenever the
requested new parent X is the task T itself or a stored descendant of T:
the upward walk from X, its visited set seeded with T's identifier,
meets an already-visited identifier. -/
theorem change_task_parent_cycle_error
    (doms : List Domain) (st : State) (dom : Nat) (user : User) (tid xid : Nat)
    (T X : Task)
    (hmem : member_of_domain dom user = true)
    (hT : getTask st.tasks dom (some tid) = some T)
    (hX : getTask st.tasks dom (some xid) = some X)
    (hauth : T.userId = user.id ∨ admin_of_domain doms dom user = true)
    (hcyc : xid = tid ∨ Desc st.tasks dom xid tid) :
    change_task_parent doms st dom user tid (some xid) =
        .error (.valueError "Cycle detected") ∧
      apply_change_task_parent doms st dom user tid (some xid) = st := by
  have hXmem := getTask_mem hX
  have hwalk : cycleWalk (st.tasks.length + 1) st.tasks dom [tid] (some X) = some false := by
    have hnn : cycleWalk (st.tasks.length + 1) st.tasks dom [tid] (some X) ≠ none :=
      cycleWalk_total st.tasks dom [tid] X hXmem.1 hXmem.2.1
    have hnt : cycleWalk (st.tasks.length + 1) st.tasks dom [tid] (some X) ≠ some true := by
      cases hcyc with
      | inl heq =>
        have hid : X.id = tid := by rw [hXmem.2.2, heq]
        simp [cycleWalk, hid]
      | inr hdesc =>
        exact desc_walk_not_true hdesc _ [tid] X (by rw [hT]; rfl)
          (List.mem_singleton.mpr rfl) hX
    cases h : cycleWalk (st.tasks.length + 1) st.tasks dom [tid] (some X) with
    | none => exact absurd h hnn
    | some b => cases b with
      | true => exact absurd h hnt
      | false => rfl
  have hdomeq : T.domain = X.domain := by
    rw [(getTask_mem hT).2.1, hXmem.2.1]
  have hcheck : check_for_cycle st.tasks T (some X) = .ok false := by
    rw [check_for_cycle, if_neg (by simp [hdomeq]), (getTask_mem hT).2.1,
      (getTask_mem hT).2.2, hwalk]
  have hmain : change_task_parent doms st dom user tid (some xid) =
      .error (.valueError "Cycle detected") := by
    rw [change_task_parent, if_neg (by simp [hmem]), hT]
    simp only [hX]
    rw [if_neg (by rcases hauth with h | h <;> simp [h]), hcheck]
  exact ⟨hmain, by rw [apply_change_task_parent, hmain]⟩

/-- Witness for C1: a two-task store where the requested new parent is a
direct child of the moved task. -/
theorem change_task_parent_cycle_error_witness :
    change_task_parent [{ id := 0, admins := [] }]
        { tasks := [{ id := 1, domain := 0, description := "T", userId := 1,
                      assignee := none, parentTask := none, completed := false,
                      numberOfSubtasks := 1, remainingSubtasks := 1, level := 0,
                      assigneeIndexSequence := 0 },
                    { id := 2, domain := 0, description := "X", userId := 1,
                      assignee := none, parentTask := some 1, completed := false,
                      numberOfSubtasks := 0, remainingSubtasks := 0, level := 1,
                      assigneeIndexSequence := 0 }],
          taskIndices := [], assigneeIndices := [], assigneeQueue := [],
          hierQueue := [], bakeQueue := [] }
        0 { id := 1, admin := false, domains := [0] } 1 (some 2) =
        .error (.valueError "Cycle detected") ∧
      apply_change_task_parent [{ id := 0, admins := [] }]
        { tasks := [{ id := 1, domain := 0, description := "T", userId := 1,
                      assignee := none, parentTask := none, completed := false,
                      numberOfSubtasks := 1, remainingSubtasks := 1, level := 0,
                      assigneeIndexSequence := 0 },
                    { id := 2, domain := 0, description := "X", userId := 1,
                      assignee := none, parentTask := some 1, completed := false,
                      numberOfSubtasks := 0, remainingSubtasks := 0, level := 1,
                      assigneeIndexSequence := 0 }],
          taskIndices := [], assigneeIndices := [], assigneeQueue := [],
          hierQueue := [], bakeQueue := [] }
        0 { id := 1, admin := false, domains := [0] } 1 (some 2) =
        { tasks := [{ id := 1, domain := 0, description := "T", userId := 1,
                      assignee := none, parentTask := none, completed := false,
                      numberOfSubtasks := 1, remainingSubtasks := 1, level := 0,
                      assigneeIndexSequence := 0 },
                    { id := 2, domain := 0, description := "X", userId := 1,
                      assignee := none, parentTask := some 1, completed := false,
                      numberOfSubtasks := 0, remainingSubtasks := 0, level := 1,
                      assigneeIndexSequence := 0 }],
          taskIndices := [], assigneeIndices := [], assigneeQueue := [],
          hierQueue := [], bakeQueue := [] } :=
  change_task_parent_cycle_error _ _ 0 _ 1 2
    { id := 1, domain := 0, description := "T", userId := 1,
      assignee := none, parentTask := none, completed := false,
      numberOfSubtasks := 1, remainingSubtasks := 1, level := 0,
      assigneeIndexSequence := 0 }
    { id := 2, domain := 0, description := "X", userId := 1,
      assignee := none, parentTask := some 1, completed := false,
      numberOfSubtasks := 0, remainingSubtasks := 0, level := 1,
      assigneeIndexSequence := 0 }
    (by decide) (by decide) (by decide) (Or.inl (by decide))
    (Or.inr (Desc.parent
      { id := 2, domain := 0, description := "X", userId := 1,
        assignee := none, parentTask := some 1, completed := false,
        numberOfSubtasks := 0, remainingSubtasks := 0, level := 1,
        assigneeIndexSequence := 0 }
      2 1 (by decide) (by decide)))

/-! ## C9 -/

/-- C9: a set_task_completed call by the assignee of an atomic task
whose requested completed value equals the task's current flag returns
the task unchanged: the state is exactly the input state (no datastore
write) and no ancestor is re-evaluated (empty propagation trace). -/
theorem set_task_completed_equal_value_noop
    (st : State) (dom : Nat) (user : User) (tid : Nat) (c : Bool) (task : Task)
    (ht : getTask st.tasks dom (some tid) = some task)
    (hatomic : task.atomic = true)
    (hassignee : task.assignee = some user.id)
    (hc : task.completed = c) :
    set_task_completed st dom user tid c = .ok (st, task, []) := by
  simp only [set_task_completed, ht]
  rw [if_neg (by simp [hatomic, can_complete_task, hassignee]), if_pos hc]

/-- Witness for C9: re-completing an already-completed assigned atomic
task is a no-op. -/
theorem set_task_completed_equal_value_noop_witness :
    set_task_completed
        { tasks := [{ id := 4, domain := 0, description := "t", userId := 1,
                      assignee := some 9, parentTask := none, completed := true,
                      numberOfSubtasks := 0, remainingSubtasks := 0, level := 0,
                      assigneeIndexSequence := 0 }],
          taskIndices := [], assigneeIndices := [], assigneeQueue := [],
          hierQueue := [], bakeQueue := [] }
        0 { id := 9, admin := false, domains := [0] } 4 true =
      .ok ({ tasks := [{ id := 4, domain := 0, description := "t", userId := 1,
                         assignee := some 9, parentTask := none, completed := true,
                         numberOfSubtasks := 0, remainingSubtasks := 0, level := 0,
                         assigneeIndexSequence := 0 }],
             taskIndices := [], assigneeIndices := [], assigneeQueue := [],
             hierQueue := [], bakeQueue := [] },
           { id := 4, domain := 0, description := "t", userId := 1,
             assignee := some 9, parentTask := none, completed := true,
             numberOfSubtasks := 0, remainingSubtasks := 0, level := 0,
             assigneeIndexSequence := 0 }, []) :=
  set_task_completed_equal_value_noop _ 0 _ 4 true
    { id := 4, domain := 0, description := "t", userId := 1,
      assignee := some 9, parentTask := none, completed := true,
      numberOfSubtasks := 0, remainingSubtasks := 0, level := 0,
      assigneeIndexSequence := 0 }
    (by decide) (by decide) (by decide) (by decide)

/-! ## C6 -/

/-- C6 (code-bug evidence): for a task whose creator requests a null new
parent, change_task_parent raises AttributeError — _check_for_cycle
dereferences new_parent.domain_identifier() on None — instead of making
the task a root task; the transaction rolls back and the state is
unchanged. -/
theorem change_task_parent_null_parent_crashes :
    change_task_parent [{ id := 0, admins := [] }]
        { tasks := [{ id := 1, domain := 0, description := "T", userId := 1,
                      assignee := none, parentTask := some 2, completed := false,
                      numberOfSubtasks := 0, remainingSubtasks := 0, level := 1,
                      assigneeIndexSequence := 0 },
                    { id := 2, domain := 0, description := "P", userId := 1,
                      assignee := none, parentTask := none, completed := false,
                      numberOfSubtasks := 1, remainingSubtasks := 1, level := 0,
                      assigneeIndexSequence := 0 }],
          taskIndices := [], assigneeIndices := [], assigneeQueue := [],
          hierQueue := [], bakeQueue := [] }
        0 { id := 1, admin := false, domains := [0] } 1 none =
        .error .attributeError ∧
      apply_change_task_parent [{ id := 0, admins := [] }]
        { tasks := [{ id := 1, domain := 0, description := "T", userId := 1,
                      assignee := none, parentTask := some 2, completed := false,
                      numberOfSubtasks := 0, remainingSubtasks := 0, level := 1,
                      assigneeIndexSequence := 0 },
                    { id := 2, domain := 0, description := "P", userId := 1,
                      assignee := none, parentTask := none, completed := false,
                      numberOfSubtasks := 1, remainingSubtasks := 1, level := 0,
                      assigneeIndexSequence := 0 }],
          taskIndices := [], assigneeIndices := [], assigneeQueue := [],
          hierQueue := [], bakeQueue := [] }
        0 { id := 1, admin := false, domains := [0] } 1 none =
        { tasks := [{ id := 1, domain := 0, description := "T", userId := 1,
                      assignee := none, parentTask := some 2, completed := false,
                      numberOfSubtasks := 0, remainingSubtasks := 0, level := 1,
                      assigneeIndexSequence := 0 },
                    { id := 2, domain := 0, description := "P", userId := 1,
                      assignee := none, parentTask := none, completed := false,
                      numberOfSubtasks := 1, remainingSubtasks := 1, level := 0,
                      assigneeIndexSequence := 0 }],
          taskIndices := [], assigneeIndices := [], assigneeQueue := [],
          hierQueue := [], bakeQueue := [] } :=
  ⟨rfl, rfl⟩

/-! ## C7 -/

/-- C7 (code-bug evidence): can_assign_task authorizes an actor who
carries the legacy per-user admin flag but is not in the domain's admin
list, is not the task's current assignee and is not first-time
self-assigning — contradicting the domain-admin-list rule the spec
adopts as canonical (the source line carries the comment "Old admin
code, change"). -/
theorem can_assign_task_uses_legacy_admin_flag :
    can_assign_task
        { id := 2, domain := 0, description := "t", userId := 1,
          assignee := some 9, parentTask := none, completed := false,
          numberOfSubtasks := 0, remainingSubtasks := 0, level := 0,
          assigneeIndexSequence := 0 }
        { id := 5, admin := true, domains := [0] }
        { id := 6, admin := false, domains := [0] } = .ok true ∧
      admin_of_domain [{ id := 0, admins := [] }] 0
        { id := 5, admin := true, domains := [0] } = false ∧
      ¬((5 : Nat) = 9) ∧
      (Task.assignee { id := 2, domain := 0, description := "t", userId := 1,
                       assignee := some 9, parentTask := none, completed := false,
                       numberOfSubtasks := 0, remainingSubtasks := 0, level := 0,
                       assigneeIndexSequence := 0 }).isSome = true :=
  ⟨rfl, by decide, by decide, by decide⟩

/-! ## C8 -/

/-- C8 (code-bug evidence): create_task with a parent identifier that
resolves to no task in the domain does not fail — it silently creates
the task as a root task (parent link None, level 0) and appends it to
the store, contradicting both the claimed NotFoundError and the
function's own docstring ("Raises: ValueError: The parent task does not
exist."). -/
theorem create_task_missing_parent_creates_root :
    getTask [({ id := 1, domain := 0, description := "r", userId := 1,
                assignee := none, parentTask := none, completed := false,
                numberOfSubtasks := 0, remainingSubtasks := 0, level := 0,
                assigneeIndexSequence := 0 } : Task)] 0 (some 99) = none ∧
      create_task
        { tasks := [{ id := 1, domain := 0, description := "r", userId := 1,
                      assignee := none, parentTask := none, completed := false,
                      numberOfSubtasks := 0, remainingSubtasks := 0, level := 0,
                      assigneeIndexSequence := 0 }],
          taskIndices := [], assigneeIndices := [], assigneeQueue := [],
          hierQueue := [], bakeQueue := [] }
        0 { id := 1, admin := false, domains := [0] } "sub" none (some 99) 7 =
      ({ tasks := [{ id := 1, domain := 0, description := "r", userId := 1,
                     assignee := none, parentTask := none, completed := false,
                     numberOfSubtasks := 0, remainingSubtasks := 0, level := 0,
                     assigneeIndexSequence := 0 },
                   { id := 7, domain := 0, description := "sub", userId := 1,
                     assignee := none, parentTask := none, completed := false,
                     numberOfSubtasks := 0, remainingSubtasks := 0, level := 0,
                     assigneeIndexSequence := 0 }],
         taskIndices := [], assigneeIndices := [], assigneeQueue := [],
         hierQueue := [{ domain := 0, taskId := 7, force := false }], bakeQueue := [] },
       .ok { id := 7, domain := 0, description := "sub", userId := 1,
             assignee := none, parentTask := none, completed := false,
             numberOfSubtasks := 0, remainingSubtasks := 0, level := 0,
             assigneeIndexSequence := 0 }) :=
  ⟨rfl, rfl⟩

/-! ## C4 -/

/-- C4 counterexample: a task whose stored hierarchy [1, 3] differs from
the computed hierarchy [3, 1] as an ordered list but not as a set.  The
source compares set(index.hierarchy) with set(hierarchy), so the job
performs no write and enqueues no child job, against the claim's
"differs as an ordered list" condition. -/
theorem update_task_index_ordered_list_counterexample :
    (alookup 2 [(3, ({ hierarchy := [], level := 0 } : TaskIndex)),
                (1, { hierarchy := [3], level := 1 }),
                (2, { hierarchy := [1, 3], level := 2 })] =
        some { hierarchy := [1, 3], level := 2 }) ∧
      ([1, 3] : List Nat) ≠ [3] ++ [1] ∧
      updateTaskIndexPost
        { tasks := [{ id := 3, domain := 0, description := "g", userId := 1,
                      assignee := none, parentTask := none, completed := false,
                      numberOfSubtasks := 1, remainingSubtasks := 1, level := 0,
                      assigneeIndexSequence := 0 },
                    { id := 1, domain := 0, description := "p", userId := 1,
                      assignee := none, parentTask := some 3, completed := false,
                      numberOfSubtasks := 1, remainingSubtasks := 1, level := 1,
                      assigneeIndexSequence := 0 },
                    { id := 2, domain := 0, description := "t", userId := 1,
                      assignee := none, parentTask := some 1, completed := false,
                      numberOfSubtasks := 0, remainingSubtasks := 0, level := 2,
                      assigneeIndexSequence := 0 }],
          taskIndices := [(3, { hierarchy := [], level := 0 }),
                          (1, { hierarchy := [3], level := 1 }),
                          (2, { hierarchy := [1, 3], level := 2 })],
          assigneeIndices := [], assigneeQueue := [], hierQueue := [], bakeQueue := [] }
        0 2 false =
      (.unchanged,
        { tasks := [{ id := 3, domain := 0, description := "g", userId := 1,
                      assignee := none, parentTask := none, completed := false,
                      numberOfSubtasks := 1, remainingSubtasks := 1, level := 0,
                      assigneeIndexSequence := 0 },
                    { id := 1, domain := 0, description := "p", userId := 1,
                      assignee := none, parentTask := some 3, completed := false,
                      numberOfSubtasks := 1, remainingSubtasks := 1, level := 1,
                      assigneeIndexSequence := 0 },
                    { id := 2, domain := 0, description := "t", userId := 1,
                      assignee := none, parentTask := some 1, completed := false,
                      numberOfSubtasks := 0, remainingSubtasks := 0, level := 2,
                      assigneeIndexSequence := 0 }],
          taskIndices := [(3, { hierarchy := [], level := 0 }),
                          (1, { hierarchy := [3], level := 1 }),
                          (2, { hierarchy := [1, 3], level := 2 })],
          assigneeIndices := [], assigneeQueue := [], hierQueue := [], bakeQueue := [] }) :=
  ⟨rfl, by decide, rfl⟩

/-- C4 as amended: one non-forced hierarchy-index invocation persists
the computed hierarchy with its length as level and enqueues the job
for every direct child exactly when the computed hierarchy differs from
the stored one as an unordered set (nonempty symmetric difference) or
the task has no index yet; when the stored and computed hierarchies are
equal as sets and an index exists, the job performs zero writes and
enqueues zero child jobs (the returned state is the input state). -/
theorem update_task_index_set_comparison
    (st : State) (dom tid : Nat) (task : Task)
    (ht : getTask st.tasks dom (some tid) = some task) :
    (∀ pid pindex, task.parentTask = some pid → alookup pid st.taskIndices = some pindex →
       (alookup tid st.taskIndices = none →
          updateTaskIndexPost st dom tid false =
            (.updated, hierWriteState st dom tid (pindex.hierarchy ++ [pid]) false)) ∧
       (∀ index, alookup tid st.taskIndices = some index →
          hierSetDiff index.hierarchy (pindex.hierarchy ++ [pid]) = true →
          updateTaskIndexPost st dom tid false =
            (.updated, hierWriteState st dom tid (pindex.hierarchy ++ [pid]) false)) ∧
       (∀ index, alookup tid st.taskIndices = some index →
          hierSetDiff index.hierarchy (pindex.hierarchy ++ [pid]) = false →
          updateTaskIndexPost st dom tid false = (.unchanged, st))) ∧
    (task.parentTask = none →
       (alookup tid st.taskIndices = none →
          updateTaskIndexPost st dom tid false =
            (.updated, hierWriteState st dom tid [] false)) ∧
       (∀ index, alookup tid st.taskIndices = some index →
          hierSetDiff index.hierarchy [] = true →
          updateTaskIndexPost st dom tid false =
            (.updated, hierWriteState st dom tid [] false)) ∧
       (∀ index, alookup tid st.taskIndices = some index →
          hierSetDiff index.hierarchy [] = false →
          updateTaskIndexPost st dom tid false = (.unchanged, st))) := by
  constructor
  · intro pid pindex hpt hpi
    refine ⟨fun hidx => ?_, fun index hidx hdiff => ?_, fun index hidx hdiff => ?_⟩
    · simp [updateTaskIndexPost, ht, hpt, hpi, hidx]
    · simp [updateTaskIndexPost, ht, hpt, hpi, hidx, hdiff]
    · simp [updateTaskIndexPost, ht, hpt, hpi, hidx, hdiff]
  · intro hpt
    refine ⟨fun hidx => ?_, fun index hidx hdiff => ?_, fun index hidx hdiff => ?_⟩
    · simp [updateTaskIndexPost, ht, hpt, hidx]
    · simp [updateTaskIndexPost, ht, hpt, hidx, hdiff]
    · simp [updateTaskIndexPost, ht, hpt, hidx, hdiff]

/-- Witness for C4 as amended: a task with an indexed parent and no
index of its own gets its hierarchy written and no children exist to
enqueue. -/
theorem update_task_index_set_comparison_witness :
    updateTaskIndexPost
        { tasks := [{ id := 1, domain := 0, description := "p", userId := 1,
                      assignee := none, parentTask := none, completed := false,
                      numberOfSubtasks := 1, remainingSubtasks := 1, level := 0,
                      assigneeIndexSequence := 0 },
                    { id := 5, domain := 0, description := "t", userId := 1,
                      assignee := none, parentTask := some 1, completed := false,
                      numberOfSubtasks := 0, remainingSubtasks := 0, level := 1,
                      assigneeIndexSequence := 0 }],
          taskIndices := [(1, { hierarchy := [], level := 0 })],
          assigneeIndices := [], assigneeQueue := [], hierQueue := [], bakeQueue := [] }
        0 5 false =
      (.updated, hierWriteState
        { tasks := [{ id := 1, domain := 0, description := "p", userId := 1,
                      assignee := none, parentTask := none, completed := false,
                      numberOfSubtasks := 1, remainingSubtasks := 1, level := 0,
                      assigneeIndexSequence := 0 },
                    { id := 5, domain := 0, description := "t", userId := 1,
                      assignee := none, parentTask := some 1, completed := false,
                      numberOfSubtasks := 0, remainingSubtasks := 0, level := 1,
                      assigneeIndexSequence := 0 }],
          taskIndices := [(1, { hierarchy := [], level := 0 })],
          assigneeIndices := [], assigneeQueue := [], hierQueue := [], bakeQueue := [] }
        0 5 ([] ++ [1]) false) :=
  ((update_task_index_set_comparison _ 0 5
      { id := 5, domain := 0, description := "t", userId := 1,
        assignee := none, parentTask := some 1, completed := false,
        numberOfSubtasks := 0, remainingSubtasks := 0, level := 1,
        assigneeIndexSequence := 0 }
      (by decide)).1 1 { hierarchy := [], level := 0 } (by decide) (by decide)).1 (by decide)

/-! ## C3 -/

/-- C3: for a composite task P (identifier 1) with exactly two atomic
incomplete children A (2) and B (3), and a parent G (0) of P:
set_task_completed on A by A's assignee leaves P incomplete and
re-evaluates only P (G is touched zero times); the subsequent
set_task_completed on B by B's assignee makes P's derived completion
true, and propagation continues past P — because P's aggregate flipped —
re-evaluating G exactly once.  G's own counters are arbitrary. -/
theorem two_children_completion_propagation
    (uA uB : User) (dG dP dA dB : String) (cG cP cA cB : Nat)
    (nG rG lG lP lA lB : Int) (qG qP qA qB : Nat)
    (G P A B : Task) (st : State)
    (hG : G = { id := 0, domain := 0, description := dG, userId := cG, assignee := none,
                parentTask := none, completed := false, numberOfSubtasks := nG,
                remainingSubtasks := rG, level := lG, assigneeIndexSequence := qG })
    (hP : P = { id := 1, domain := 0, description := dP, userId := cP, assignee := none,
                parentTask := some 0, completed := false, numberOfSubtasks := 2,
                remainingSubtasks := 2, level := lP, assigneeIndexSequence := qP })
    (hA : A = { id := 2, domain := 0, description := dA, userId := cA,
                assignee := some uA.id, parentTask := some 1, completed := false,
                numberOfSubtasks := 0, remainingSubtasks := 0, level := lA,
                assigneeIndexSequence := qA })
    (hB : B = { id := 3, domain := 0, description := dB, userId := cB,
                assignee := some uB.id, parentTask := some 1, completed := false,
                numberOfSubtasks := 0, remainingSubtasks := 0, level := lB,
                assigneeIndexSequence := qB })
    (hst : st = { tasks := [G, P, A, B], taskIndices := [], assigneeIndices := [],
                  assigneeQueue := [], hierQueue := [], bakeQueue := [] }) :
    set_task_completed st 0 uA 2 true =
        .ok ({ st with tasks := [G, { P with remainingSubtasks := 1 },
                                 { A with completed := true }, B] },
             { A with completed := true }, [1]) ∧
      (getTask [G, { P with remainingSubtasks := 1 },
                { A with completed := true }, B] 0 (some 1)).map Task.completed =
        some false ∧
      set_task_completed
          { st with tasks := [G, { P with remainingSubtasks := 1 },
                              { A with completed := true }, B] }
          0 uB 3 true =
        .ok ({ st with tasks := [{ G with remainingSubtasks := rG - 1,
                                          completed := rG - 1 == 0 },
                                 { P with remainingSubtasks := 0, completed := true },
                                 { A with completed := true },
                                 { B with completed := true }] },
             { B with completed := true }, [1, 0]) ∧
      (getTask [{ G with remainingSubtasks := rG - 1, completed := rG - 1 == 0 },
                { P with remainingSubtasks := 0, completed := true },
                { A with completed := true },
                { B with completed := true }] 0 (some 1)).map Task.completed =
        some true ∧
      List.count 0 [1] = 0 ∧ List.count 0 [1, 0] = 1 := by
  subst hG hP hA hB hst
  refine ⟨?_, by simp [getTask], ?_, by simp [getTask], by decide, by decide⟩
  · simp [set_task_completed, getTask, can_complete_task, Task.atomic,
      propagate_completion, propLoop, putTask, decrement_incomplete_subtasks]
  · simp [set_task_completed, getTask, can_complete_task, Task.atomic,
      propagate_completion, propLoop, putTask, decrement_incomplete_subtasks]

/-- Witness for C3: the two-children scenario with concrete users 21 and
22, G having one other incomplete subtree slot (so completing P also
completes G). -/
theorem two_children_completion_propagation_witness :
    set_task_completed
        { tasks := [{ id := 0, domain := 0, description := "g", userId := 1,
                      assignee := none, parentTask := none, completed := false,
                      numberOfSubtasks := 1, remainingSubtasks := 1, level := 0,
                      assigneeIndexSequence := 0 },
                    { id := 1, domain := 0, description := "p", userId := 1,
                      assignee := none, parentTask := some 0, completed := false,
                      numberOfSubtasks := 2, remainingSubtasks := 2, level := 1,
                      assigneeIndexSequence := 0 },
                    { id := 2, domain := 0, description := "a", userId := 1,
                      assignee := some 21, parentTask := some 1, completed := false,
                      numberOfSubtasks := 0, remainingSubtasks := 0, level := 2,
                      assigneeIndexSequence := 0 },
                    { id := 3, domain := 0, description := "b", userId := 1,
                      assignee := some 22, parentTask := some 1, completed := false,
                      numberOfSubtasks := 0, remainingSubtasks := 0, level := 2,
                      assigneeIndexSequence := 0 }],
          taskIndices := [], assigneeIndices := [], assigneeQueue := [],
          hierQueue := [], bakeQueue := [] }
        0 { id := 21, admin := false, domains := [0] } 2 true =
      .ok ({ tasks := [{ id := 0, domain := 0, description := "g", userId := 1,
                         assignee := none, parentTask := none, completed := false,
                         numberOfSubtasks := 1, remainingSubtasks := 1, level := 0,
                         assigneeIndexSequence := 0 },
                       { id := 1, domain := 0, description := "p", userId := 1,
                         assignee := none, parentTask := some 0, completed := false,
                         numberOfSubtasks := 2, remainingSubtasks := 1, level := 1,
                         assigneeIndexSequence := 0 },
                       { id := 2, domain := 0, description := "a", userId := 1,
                         assignee := some 21, parentTask := some 1, completed := true,
                         numberOfSubtasks := 0, remainingSubtasks := 0, level := 2,
                         assigneeIndexSequence := 0 },
                       { id := 3, domain := 0, description := "b", userId := 1,
                         assignee := some 22, parentTask := some 1, completed := false,
                         numberOfSubtasks := 0, remainingSubtasks := 0, level := 2,
                         assigneeIndexSequence := 0 }],
             taskIndices := [], assigneeIndices := [], assigneeQueue := [],
             hierQueue := [], bakeQueue := [] },
           { id := 2, domain := 0, description := "a", userId := 1,
             assignee := some 21, parentTask := some 1, completed := true,
             numberOfSubtasks := 0, remainingSubtasks := 0, level := 2,
             assigneeIndexSequence := 0 }, [1]) ∧
      List.count 0 [1] = 0 ∧ List.count 0 [1, 0] = 1 := by
  have h := two_children_completion_propagation
    { id := 21, admin := false, domains := [0] }
    { id := 22, admin := false, domains := [0] }
    "g" "p" "a" "b" 1 1 1 1 1 1 0 1 2 2 0 0 0 0
    _ _ _ _ _ rfl rfl rfl rfl rfl
  exact ⟨h.1, h.2.2.2.2⟩

/-! ## Association-list and store lemmas for the assignee-index worker -/

theorem alookup_aupsert (u k : Nat) (v : α) (l : List (Nat × α)) :
    alookup u (aupsert k v l) = if u = k then some v else alookup u l := by
  induction l with
  | nil =>
    by_cases h : u = k
    · subst h; simp [aupsert, alookup]
    · simp [aupsert, alookup, h, Ne.symm h]
  | cons p rest ih =>
    obtain ⟨k', v'⟩ := p
    by_cases hk : k' = k
    · subst hk
      by_cases hu : u = k'
      · subst hu; simp [aupsert, alookup]
      · simp [aupsert, alookup, hu, Ne.symm hu]
    · simp only [aupsert, if_neg hk]
      by_cases hu : k' = u
      · subst hu
        simp [alookup, fun h => hk (h : k' = k)]
      · simp [alookup, hu, ih]

theorem alookup_aerase (u r : Nat) (l : List (Nat × α)) :
    alookup u (aerase r l) = if u = r then none else alookup u l := by
  induction l with
  | nil => simp [aerase, alookup]
  | cons p rest ih =>
    obtain ⟨k, v⟩ := p
    have hstep : aerase r ((k, v) :: rest) =
        if k = r then aerase r rest else (k, v) :: aerase r rest := by
      by_cases hk : k = r <;> simp [aerase, List.filter_cons, hk]
    rw [hstep]
    by_cases hk : k = r
    · rw [if_pos hk, ih]
      subst hk
      by_cases hu : u = k
      · simp [hu]
      · simp [alookup, hu, Ne.symm hu]
    · rw [if_neg hk]
      by_cases hu : k = u
      · subst hu
        simp [alookup, hk]
      · simp [alookup, hu, ih]

theorem decrement_reference_isSome (counts : List (Nat × Nat)) (remove : Option Nat)
    (u : Nat) :
    (alookup u (decrement_reference counts remove)).isSome = (alookup u counts).isSome := by
  cases remove with
  | none => rfl
  | some r =>
    simp only [decrement_reference]
    cases hr : alookup r counts with
    | none => simp
    | some c =>
      simp only [Option.elim_some]
      by_cases hc : 0 < c
      · rw [if_pos hc, alookup_aupsert]
        by_cases hur : u = r
        · rw [if_pos hur, hur, hr]; rfl
        · rw [if_neg hur]
      · rw [if_neg hc]

/-- Every key of the updated reference counts is covered by the updated
assignee list (the stored assignees plus the propagated add). -/
theorem counts_key_in_assignees1 {index : AssigneeIndex} {add remove : Option Nat}
    {u c : Nat} (hcov : KeysCovered index)
    (hu : alookup u (update_reference_count index.referenceCounts add remove) = some c) :
    u ∈ index.assignees ++ (add.bind fun a =>
      if alookup a (update_reference_count index.referenceCounts add remove) = some 1
      then some a else none).toList := by
  have hold : (alookup u (decrement_reference index.referenceCounts remove)).isSome = true →
      u ∈ index.assignees := by
    intro hs
    rw [decrement_reference_isSome] at hs
    obtain ⟨c0, hc0⟩ := Option.isSome_iff_exists.mp hs
    exact hcov u c0 hc0
  cases add with
  | none =>
    refine List.mem_append_left _ (hold ?_)
    rw [show alookup u (decrement_reference index.referenceCounts remove) = some c from hu]
    rfl
  | some a =>
    have hval : alookup a (update_reference_count index.referenceCounts (some a) remove) =
        some ((alookup a (decrement_reference index.referenceCounts remove)).getD 0 + 1) := by
      unfold update_reference_count
      rw [alookup_aupsert, if_pos rfl]
    by_cases hua : u = a
    · subst hua
      cases hx : alookup u (decrement_reference index.referenceCounts remove) with
      | none =>
        -- fresh entry with count 1: the add is propagated
        have h1 : alookup u (update_reference_count index.referenceCounts (some u) remove) =
            some 1 := by rw [hval, hx]; rfl
        simp [h1]
      | some x =>
        refine List.mem_append_left _ (hold ?_)
        rw [hx]
        rfl
    · have hu' : alookup u (update_reference_count index.referenceCounts (some a) remove) =
          alookup u (decrement_reference index.referenceCounts remove) := by
        unfold update_reference_count
        rw [alookup_aupsert, if_neg hua]
      refine List.mem_append_left _ (hold ?_)
      rw [show alookup u (decrement_reference index.referenceCounts remove) = some c from
        hu' ▸ hu]
      rfl

theorem applyAssigneeDelta_total {index : AssigneeIndex} {add remove : Option Nat}
    (hcov : KeysCovered index) :
    applyAssigneeDelta index add remove ≠ none := by
  cases remove with
  | none => simp [applyAssigneeDelta]
  | some r =>
    simp only [applyAssigneeDelta]
    by_cases h0 : alookup r (update_reference_count index.referenceCounts add (some r)) = some 0
    · rw [if_pos h0, if_pos (counts_key_in_assignees1 hcov h0)]
      simp
    · rw [if_neg h0]
      simp

theorem applyAssigneeDelta_spec {index index1 : AssigneeIndex} {add remove : Option Nat}
    {pA pR : Option Nat}
    (h : applyAssigneeDelta index add remove = some (index1, pA, pR)) :
    index1.sequence = index.sequence + 1 ∧ (KeysCovered index → KeysCovered index1) := by
  cases remove with
  | none =>
    simp only [applyAssigneeDelta, Option.some.injEq, Prod.mk.injEq] at h
    obtain ⟨h1, -, -⟩ := h
    subst h1
    refine ⟨rfl, fun hcov u c hu => ?_⟩
    exact counts_key_in_assignees1 hcov hu
  | some r =>
    simp only [applyAssigneeDelta] at h
    by_cases h0 : alookup r (update_reference_count index.referenceCounts add (some r)) = some 0
    · rw [if_pos h0] at h
      by_cases hmem : r ∈ index.assignees ++ (add.bind fun a =>
          if alookup a (update_reference_count index.referenceCounts add (some r)) = some 1
          then some a else none).toList
      · rw [if_pos hmem] at h
        simp only [Option.some.injEq, Prod.mk.injEq] at h
        obtain ⟨h1, -, -⟩ := h
        subst h1
        refine ⟨rfl, fun hcov u c hu => ?_⟩
        rw [alookup_aerase] at hu
        by_cases hur : u = r
        · rw [if_pos hur] at hu; exact absurd hu (by simp)
        · rw [if_neg hur] at hu
          exact List.mem_erase_of_ne hur |>.mpr (counts_key_in_assignees1 hcov hu)
      · rw [if_neg hmem] at h
        exact absurd h (by simp)
    · rw [if_neg h0] at h
      simp only [Option.some.injEq, Prod.mk.injEq] at h
      obtain ⟨h1, -, -⟩ := h
      subst h1
      refine ⟨rfl, fun hcov u c hu => ?_⟩
      exact counts_key_in_assignees1 hcov hu

theorem WF_putTask {tasks : List Task} {t : Task} (h : WF tasks) : WF (putTask tasks t) := by
  unfold putTask
  by_cases hany : tasks.any fun u => u.id == t.id
  · rw [if_pos hany]
    have hmap : ((tasks.map fun u => if u.id == t.id then t else u).map Task.id) =
        tasks.map Task.id := by
      rw [List.map_map]
      refine List.map_congr_left fun u _ => ?_
      by_cases hu : u.id = t.id
      · simp [Function.comp, hu]
      · simp [Function.comp, hu]
    unfold WF
    rw [hmap]
    exact h
  · rw [if_neg hany]
    unfold WF
    rw [List.map_append]
    simp only [List.map_cons, List.map_nil]
    rw [List.nodup_append]
    refine ⟨h, List.nodup_singleton _, ?_⟩
    intro x hx hxt
    simp only [List.mem_singleton] at hxt
    subst hxt
    rw [List.any_eq_true] at hany
    obtain ⟨u, hu, hid⟩ := List.mem_map.mp hx
    exact hany ⟨u, hu, by simp [hid]⟩

theorem getTask_putTask_ne {tasks : List Task} {t : Task} {dom i : Nat} (h : t.id ≠ i) :
    getTask (putTask tasks t) dom (some i) = getTask tasks dom (some i) := by
  unfold getTask putTask
  simp only [Option.some_bind]
  by_cases hany : tasks.any fun u => u.id == t.id
  · rw [if_pos hany]
    clear hany
    induction tasks with
    | nil => rfl
    | cons u rest ih =>
      simp only [List.map_cons]
      by_cases hu : u.id = t.id
      · rw [show (if (u.id == t.id) = true then t else u) = t from by simp [hu]]
        rw [@List.find?_cons_of_neg Task (fun x => x.domain == dom && x.id == i) t _
              (by simp [h]),
            @List.find?_cons_of_neg Task (fun x => x.domain == dom && x.id == i) u _
              (by simp [hu, h])]
        exact ih
      · rw [show (if (u.id == t.id) = true then t else u) = u from by simp [hu]]
        cases hp : (u.domain == dom && u.id == i) with
        | true =>
          rw [@List.find?_cons_of_pos Task (fun x => x.domain == dom && x.id == i) u _ hp,
              @List.find?_cons_of_pos Task (fun x => x.domain == dom && x.id == i) u _ hp]
        | false =>
          rw [@List.find?_cons_of_neg Task (fun x => x.domain == dom && x.id == i) u _
                (by simp [hp]),
              @List.find?_cons_of_neg Task (fun x => x.domain == dom && x.id == i) u _
                (by simp [hp])]
          exact ih
  · rw [if_neg hany, List.find?_append]
    have h2 : (t.domain == dom && t.id == i) = false := by simp [h]
    simp [List.find?, h2]

theorem getTask_putTask_self {tasks : List Task} {t0 t : Task} (hWF : WF tasks)
    (h0 : t0 ∈ tasks) (hid : t.id = t0.id) (hdom : t.domain = t0.domain) :
    getTask (putTask tasks t) t0.domain (some t0.id) = some t := by
  unfold getTask putTask
  simp only [Option.some_bind]
  have hany : (tasks.any fun u => u.id == t.id) = true := by
    rw [List.any_eq_true]
    exact ⟨t0, h0, by simp [hid]⟩
  rw [if_pos hany]
  clear hany
  induction tasks with
  | nil => cases h0
  | cons u rest ih =>
    have hWF' : WF rest := (List.nodup_cons.mp hWF).2
    have hnotin : u.id ∉ rest.map Task.id := (List.nodup_cons.mp hWF).1
    simp only [List.map_cons]
    rcases List.mem_cons.mp h0 with h0' | h0'
    · subst h0'
      rw [show (if (t0.id == t.id) = true then t else t0) = t from by simp [hid]]
      exact @List.find?_cons_of_pos Task
        (fun x => x.domain == t0.domain && x.id == t0.id) t _ (by simp [hid, hdom])
    · have hne : u.id ≠ t0.id := by
        intro hcontra
        exact hnotin (hcontra ▸ List.mem_map.mpr ⟨t0, h0', rfl⟩)
      rw [show (if (u.id == t.id) = true then t else u) = u from by simp [hid, hne]]
      rw [@List.find?_cons_of_neg Task
        (fun x => x.domain == t0.domain && x.id == t0.id) u _ (by simp [hne])]
      exact ih hWF' h0'

/-- One in-sequence delta applied at a task with a covered index and a
resolvable parent is processed: the outcome is applied, the store stays
well-formed, the task keeps its parent link and the parent stays
resolvable, and the task's index advances its sequence by one while
staying covered. -/
theorem assignee_post_step
    {st : State} {dom tid : Nat} {task : Task} {index : AssigneeIndex}
    (hWF : WF st.tasks)
    (ht : getTask st.tasks dom (some tid) = some task)
    (hidx : alookup tid st.assigneeIndices = some index)
    (hcov : KeysCovered index)
    (hpar : ParentResolvable st dom task)
    (a r : Option Nat) (hne : a ≠ r) :
    ∃ c st1,
      updateAssigneeIndexPost st
          { domain := dom, taskId := tid, sequence := index.sequence,
            addAssignee := a, removeAssignee := r } = (.applied c, st1) ∧
      WF st1.tasks ∧
      (∃ task1, getTask st1.tasks dom (some tid) = some task1 ∧
        task1.parentTask = task.parentTask ∧ ParentResolvable st1 dom task1) ∧
      (∃ index1, alookup tid st1.assigneeIndices = some index1 ∧
        index1.sequence = index.sequence + 1 ∧ KeysCovered index1) := by
  cases happ : applyAssigneeDelta index a r with
  | none => exact absurd happ (applyAssigneeDelta_total hcov)
  | some out =>
    obtain ⟨index1, pA, pR⟩ := out
    obtain ⟨hseq1, hcov1⟩ := applyAssigneeDelta_spec happ
    have hcov1' := hcov1 hcov
    have hidx1 : ∀ l, alookup tid (aupsert tid index1 l) = some index1 := fun l => by
      rw [alookup_aupsert, if_pos rfl]
    cases hpt : task.parentTask with
    | none =>
      refine ⟨pA.isSome || pR.isSome,
        { st with assigneeIndices := aupsert tid index1 st.assigneeIndices,
                  bakeQueue := if pA.isSome || pR.isSome
                    then st.bakeQueue ++ [task.id] else st.bakeQueue },
        ?_, hWF, ⟨task, ht, by rw [hpt], Or.inl hpt⟩, ⟨index1, hidx1 _, hseq1, hcov1'⟩⟩
      simp only [updateAssigneeIndexPost, ht, hidx, hpt, Option.getD_some, lt_irrefl,
        if_neg hne]
      rw [happ]
      cases hch : pA.isSome || pR.isSome <;> simp [hch]
    | some pid =>
      obtain ⟨p, hp⟩ : ∃ p, getTask st.tasks dom (some pid) = some p := by
        rcases hpar with hnone | ⟨p, hp⟩
        · rw [hpt] at hnone; exact absurd hnone (by simp)
        · rw [hpt] at hp; exact ⟨p, hp⟩
      have hpmem := getTask_mem hp
      by_cases hpp : pA = pR
      · -- no propagation: queue worker is a no-op, tasks unchanged
        refine ⟨pA.isSome || pR.isSome,
          { st with assigneeIndices := aupsert tid index1 st.assigneeIndices,
                    bakeQueue := if pA.isSome || pR.isSome
                      then st.bakeQueue ++ [task.id] else st.bakeQueue },
          ?_, hWF, ⟨task, ht, by rw [hpt], Or.inr ⟨p, by rw [hpt]; exact hp⟩⟩,
          ⟨index1, hidx1 _, hseq1, hcov1'⟩⟩
        simp only [updateAssigneeIndexPost, ht, hidx, Option.getD_some, lt_irrefl,
          if_neg hne]
        rw [happ]
        simp only [hpt, hp, queue_assignee_worker, if_pos hpp]
        cases hch : pA.isSome || pR.isSome <;> simp [hch]
      · -- propagation: the parent's sequence counter is incremented
        obtain ⟨q, hq⟩ : ∃ q : Task,
            q = { p with assigneeIndexSequence := p.assigneeIndexSequence + 1 } := ⟨_, rfl⟩
        have hself : getTask (putTask st.tasks q) dom (some pid) = some q := by
          rw [hq, ← hpmem.2.1, ← hpmem.2.2]
          exact getTask_putTask_self hWF hpmem.1 rfl rfl
        have hqpar : q.parentTask = p.parentTask := by rw [hq]
        by_cases hpid : pid = tid
        · -- the parent reference loops back to the task itself
          have hptask : p = task := by
            rw [hpid, ht] at hp
            exact (Option.some.inj hp).symm
          have hppt : p.parentTask = some pid := (congrArg Task.parentTask hptask).trans hpt
          refine ⟨pA.isSome || pR.isSome,
            { st with
                tasks := putTask st.tasks q,
                assigneeIndices := aupsert tid index1 st.assigneeIndices,
                assigneeQueue := st.assigneeQueue ++
                  [{ domain := p.domain, taskId := p.id,
                     sequence := p.assigneeIndexSequence,
                     addAssignee := pA, removeAssignee := pR }],
                bakeQueue := if pA.isSome || pR.isSome
                  then st.bakeQueue ++ [task.id] else st.bakeQueue },
            ?_, WF_putTask hWF, ?_, ⟨index1, hidx1 _, hseq1, hcov1'⟩⟩
          · simp only [updateAssigneeIndexPost, ht, hidx, Option.getD_some, lt_irrefl,
              if_neg hne]
            rw [happ]
            simp only [hpt, hp, queue_assignee_worker, if_neg hpp]
            cases hch : pA.isSome || pR.isSome <;> simp [hch, hq]
          · refine ⟨q, ?_, ?_, ?_⟩
            · rw [← hpid]
              exact hself
            · rw [hqpar]
              exact hppt
            · right
              refine ⟨q, ?_⟩
              rw [hqpar, hppt]
              exact hself
        · -- the parent is a different task
          refine ⟨pA.isSome || pR.isSome,
            { st with
                tasks := putTask st.tasks q,
                assigneeIndices := aupsert tid index1 st.assigneeIndices,
                assigneeQueue := st.assigneeQueue ++
                  [{ domain := p.domain, taskId := p.id,
                     sequence := p.assigneeIndexSequence,
                     addAssignee := pA, removeAssignee := pR }],
                bakeQueue := if pA.isSome || pR.isSome
                  then st.bakeQueue ++ [task.id] else st.bakeQueue },
            ?_, WF_putTask hWF, ?_, ⟨index1, hidx1 _, hseq1, hcov1'⟩⟩
          · simp only [updateAssigneeIndexPost, ht, hidx, Option.getD_some, lt_irrefl,
              if_neg hne]
            rw [happ]
            simp only [hpt, hp, queue_assignee_worker, if_neg hpp]
            cases hch : pA.isSome || pR.isSome <;> simp [hch, hq]
          · refine ⟨task, ?_, hpt, ?_⟩
            · have hne2 : q.id ≠ tid := by
                rw [hq]
                simpa [hpmem.2.2] using hpid
              rw [getTask_putTask_ne hne2]
              exact ht
            · right
              refine ⟨q, ?_⟩
              rw [hpt]
              exact hself

/-! ## C2 -/

/-- C2: at a task whose assignee index awaits sequence s, a delta with a
sequence number strictly below s is a duplicate no-op that returns the
state unchanged; one strictly above s is a retryable failure that
returns the state unchanged, neither mutating the index nor advancing
its sequence; and delta s+1 delivered early is rejected as retryable
without mutating state, while after delta s has been applied the
redelivered delta s+1 is processed (applied outcome), and the final
state equals that of in-order delivery. -/
theorem assignee_delta_sequencing
    (st : State) (dom tid s : Nat) (task : Task) (index : AssigneeIndex)
    (hWF : WF st.tasks)
    (ht : getTask st.tasks dom (some tid) = some task)
    (hidx : alookup tid st.assigneeIndices = some index)
    (hseq : index.sequence = s)
    (hcov : KeysCovered index)
    (hpar : ParentResolvable st dom task) :
    (∀ a r q, a ≠ r → q < s →
       updateAssigneeIndexPost st ⟨dom, tid, q, a, r⟩ = (.duplicate, st)) ∧
    (∀ a r q, a ≠ r → s < q →
       updateAssigneeIndexPost st ⟨dom, tid, q, a, r⟩ = (.retry, st)) ∧
    (∀ a1 r1 a2 r2, a1 ≠ r1 → a2 ≠ r2 →
       updateAssigneeIndexPost st ⟨dom, tid, s + 1, a2, r2⟩ = (.retry, st) ∧
       (∃ c st2, updateAssigneeIndexPost
           (updateAssigneeIndexPost st ⟨dom, tid, s, a1, r1⟩).2
           ⟨dom, tid, s + 1, a2, r2⟩ = (.applied c, st2)) ∧
       updateAssigneeIndexPost (updateAssigneeIndexPost
           (updateAssigneeIndexPost st ⟨dom, tid, s + 1, a2, r2⟩).2
           ⟨dom, tid, s, a1, r1⟩).2 ⟨dom, tid, s + 1, a2, r2⟩ =
         updateAssigneeIndexPost (updateAssigneeIndexPost st
           ⟨dom, tid, s, a1, r1⟩).2 ⟨dom, tid, s + 1, a2, r2⟩) := by
  have hdup : ∀ a r q, a ≠ r → q < s →
      updateAssigneeIndexPost st ⟨dom, tid, q, a, r⟩ = (.duplicate, st) := by
    intro a r q hne hlt
    simp only [updateAssigneeIndexPost, ht, hidx, Option.getD_some, if_neg hne]
    rw [if_neg (by omega), if_pos (by omega)]
  have hretry : ∀ a r q, a ≠ r → s < q →
      updateAssigneeIndexPost st ⟨dom, tid, q, a, r⟩ = (.retry, st) := by
    intro a r q hne hlt
    simp only [updateAssigneeIndexPost, ht, hidx, Option.getD_some, if_neg hne]
    rw [if_pos (by omega)]
  refine ⟨hdup, hretry, fun a1 r1 a2 r2 hne1 hne2 => ?_⟩
  have hretry2 := hretry a2 r2 (s + 1) hne2 (by omega)
  obtain ⟨c1, st1, heq1, hWF1, ⟨task1, ht1, -, hparres1⟩, index1, hidx1, hseq1, hcov1⟩ :=
    assignee_post_step hWF ht hidx hcov hpar a1 r1 hne1
  rw [hseq] at heq1
  have hst1 : (updateAssigneeIndexPost st ⟨dom, tid, s, a1, r1⟩).2 = st1 := by
    rw [heq1]
  obtain ⟨c2, st2, heq2, -, -, -⟩ :=
    assignee_post_step hWF1 ht1 hidx1 hcov1 hparres1 a2 r2 hne2
  rw [hseq1, hseq] at heq2
  refine ⟨hretry2, ⟨c2, st2, ?_⟩, ?_⟩
  · rw [hst1]
    exact heq2
  · rw [hretry2]

/-- Witness for C2: a concrete index awaiting sequence 5: sequence 3 is
a duplicate no-op, sequence 9 a retry, both returning the state
unchanged; and after the in-sequence delta 5, the delta with sequence 6
is processed. -/
theorem assignee_delta_sequencing_witness :
    updateAssigneeIndexPost
        { tasks := [{ id := 2, domain := 0, description := "t", userId := 1,
                      assignee := some 7, parentTask := some 1, completed := false,
                      numberOfSubtasks := 0, remainingSubtasks := 0, level := 1,
                      assigneeIndexSequence := 6 },
                    { id := 1, domain := 0, description := "p", userId := 1,
                      assignee := none, parentTask := none, completed := false,
                      numberOfSubtasks := 1, remainingSubtasks := 1, level := 0,
                      assigneeIndexSequence := 0 }],
          taskIndices := [], assigneeIndices := [(2, { sequence := 5, referenceCounts := [(7, 1)], assignees := [7], assigneeCount := 1 })],
          assigneeQueue := [], hierQueue := [], bakeQueue := [] }
        ⟨0, 2, 3, some 8, none⟩ =
      (.duplicate,
        { tasks := [{ id := 2, domain := 0, description := "t", userId := 1,
                      assignee := some 7, parentTask := some 1, completed := false,
                      numberOfSubtasks := 0, remainingSubtasks := 0, level := 1,
                      assigneeIndexSequence := 6 },
                    { id := 1, domain := 0, description := "p", userId := 1,
                      assignee := none, parentTask := none, completed := false,
                      numberOfSubtasks := 1, remainingSubtasks := 1, level := 0,
                      assigneeIndexSequence := 0 }],
          taskIndices := [], assigneeIndices := [(2, { sequence := 5, referenceCounts := [(7, 1)], assignees := [7], assigneeCount := 1 })],
          assigneeQueue := [], hierQueue := [], bakeQueue := [] }) ∧
    updateAssigneeIndexPost
        { tasks := [{ id := 2, domain := 0, description := "t", userId := 1,
                      assignee := some 7, parentTask := some 1, completed := false,
                      numberOfSubtasks := 0, remainingSubtasks := 0, level := 1,
                      assigneeIndexSequence := 6 },
                    { id := 1, domain := 0, description := "p", userId := 1,
                      assignee := none, parentTask := none, completed := false,
                      numberOfSubtasks := 1, remainingSubtasks := 1, level := 0,
                      assigneeIndexSequence := 0 }],
          taskIndices := [], assigneeIndices := [(2, { sequence := 5, referenceCounts := [(7, 1)], assignees := [7], assigneeCount := 1 })],
          assigneeQueue := [], hierQueue := [], bakeQueue := [] }
        ⟨0, 2, 9, some 8, none⟩ =
      (.retry,
        { tasks := [{ id := 2, domain := 0, description := "t", userId := 1,
                      assignee := some 7, parentTask := some 1, completed := false,
                      numberOfSubtasks := 0, remainingSubtasks := 0, level := 1,
                      assigneeIndexSequence := 6 },
                    { id := 1, domain := 0, description := "p", userId := 1,
                      assignee := none, parentTask := none, completed := false,
                      numberOfSubtasks := 1, remainingSubtasks := 1, level := 0,
                      assigneeIndexSequence := 0 }],
          taskIndices := [], assigneeIndices := [(2, { sequence := 5, referenceCounts := [(7, 1)], assignees := [7], assigneeCount := 1 })],
          assigneeQueue := [], hierQueue := [], bakeQueue := [] }) ∧
    (∃ c st2, updateAssigneeIndexPost
        (updateAssigneeIndexPost
          { tasks := [{ id := 2, domain := 0, description := "t", userId := 1,
                        assignee := some 7, parentTask := some 1, completed := false,
                        numberOfSubtasks := 0, remainingSubtasks := 0, level := 1,
                        assigneeIndexSequence := 6 },
                      { id := 1, domain := 0, description := "p", userId := 1,
                        assignee := none, parentTask := none, completed := false,
                        numberOfSubtasks := 1, remainingSubtasks := 1, level := 0,
                        assigneeIndexSequence := 0 }],
            taskIndices := [], assigneeIndices := [(2, { sequence := 5, referenceCounts := [(7, 1)], assignees := [7], assigneeCount := 1 })],
            assigneeQueue := [], hierQueue := [], bakeQueue := [] }
          ⟨0, 2, 5, some 8, some 7⟩).2
        ⟨0, 2, 6, none, some 8⟩ = (.applied c, st2)) := by
  have h := assignee_delta_sequencing
    { tasks := [{ id := 2, domain := 0, description := "t", userId := 1,
                  assignee := some 7, parentTask := some 1, completed := false,
                  numberOfSubtasks := 0, remainingSubtasks := 0, level := 1,
                  assigneeIndexSequence := 6 },
                { id := 1, domain := 0, description := "p", userId := 1,
                  assignee := none, parentTask := none, completed := false,
                  numberOfSubtasks := 1, remainingSubtasks := 1, level := 0,
                  assigneeIndexSequence := 0 }],
      taskIndices := [], assigneeIndices := [(2, { sequence := 5, referenceCounts := [(7, 1)], assignees := [7], assigneeCount := 1 })],
      assigneeQueue := [], hierQueue := [], bakeQueue := [] }
    0 2 5
    { id := 2, domain := 0, description := "t", userId := 1,
      assignee := some 7, parentTask := some 1, completed := false,
      numberOfSubtasks := 0, remainingSubtasks := 0, level := 1,
      assigneeIndexSequence := 6 }
    { sequence := 5, referenceCounts := [(7, 1)], assignees := [7], assigneeCount := 1 }
    (by unfold WF; decide) (by decide) (by decide) rfl
    (by
      intro u c hc
      simp only [alookup] at hc
      by_cases h7 : (7 : Nat) = u
      · simp [← h7]
      · rw [if_neg h7] at hc
        exact absurd hc (by simp))
    (Or.inr ⟨{ id := 1, domain := 0, description := "p", userId := 1,
               assignee := none, parentTask := none, completed := false,
               numberOfSubtasks := 1, remainingSubtasks := 1, level := 0,
               assigneeIndexSequence := 0 }, by decide⟩)
  exact ⟨h.1 (some 8) none 3 (by decide) (by decide),
    h.2.1 (some 8) none 9 (by decide) (by decide),
    (h.2.2 (some 8) (some 7) none (some 8) (by decide) (by decide)).2.1⟩

/-! ## C5 -/

/-- Under the covering invariant, an in-sequence delta's core never
crashes, and the propagated add is the added assignee exactly when its
updated count is 1 while the propagated remove is the removed assignee
exactly when its updated count is 0. -/
theorem applyAssigneeDelta_out {index : AssigneeIndex} {a r : Option Nat}
    (hcov : KeysCovered index) :
    ∃ index1, applyAssigneeDelta index a r = some (index1,
      a.bind fun x =>
        if alookup x (update_reference_count index.referenceCounts a r) = some 1
        then some x else none,
      r.bind fun x =>
        if alookup x (update_reference_count index.referenceCounts a r) = some 0
        then some x else none) := by
  cases r with
  | none => exact ⟨_, rfl⟩
  | some rr =>
    by_cases h0 : alookup rr (update_reference_count index.referenceCounts a (some rr)) = some 0
    · apply Exists.intro
      simp only [applyAssigneeDelta]
      rw [if_pos h0, if_pos (counts_key_in_assignees1 hcov h0)]
      simp [h0]
      rfl
    · apply Exists.intro
      simp only [applyAssigneeDelta]
      rw [if_neg h0]
      simp [h0]
      rfl

/-- C5: an in-sequence delta applied at a task with a parent enqueues a
delta for the parent exactly when a set-membership transition occurred —
the added assignee's reference count became exactly 1 or the removed
assignee's reached exactly 0 — carrying the propagated add/remove and a
sequence number read from the parent task's assignee-index counter,
which is incremented in the same resulting state; a delta that only
moves reference counts enqueues nothing and leaves the parent task
untouched. -/
theorem assignee_delta_parent_enqueue_iff_transition
    (st : State) (dom tid pid : Nat) (task p : Task) (index : AssigneeIndex)
    (a r : Option Nat)
    (hWF : WF st.tasks)
    (ht : getTask st.tasks dom (some tid) = some task)
    (hpt : task.parentTask = some pid)
    (hp : getTask st.tasks dom (some pid) = some p)
    (hidx : alookup tid st.assigneeIndices = some index)
    (hcov : KeysCovered index)
    (hne : a ≠ r) :
    ∀ counts pAdd pRem,
      counts = update_reference_count index.referenceCounts a r →
      pAdd = (a.bind fun x => if alookup x counts = some 1 then some x else none) →
      pRem = (r.bind fun x => if alookup x counts = some 0 then some x else none) →
      (updateAssigneeIndexPost st ⟨dom, tid, index.sequence, a, r⟩).1 =
          .applied (pAdd.isSome || pRem.isSome) ∧
      (updateAssigneeIndexPost st ⟨dom, tid, index.sequence, a, r⟩).2.assigneeQueue =
        st.assigneeQueue ++
          (if pAdd.isSome || pRem.isSome
           then [{ domain := p.domain, taskId := p.id,
                   sequence := p.assigneeIndexSequence,
                   addAssignee := pAdd, removeAssignee := pRem }]
           else []) ∧
      getTask (updateAssigneeIndexPost st ⟨dom, tid, index.sequence, a, r⟩).2.tasks
          dom (some pid) =
        some (if pAdd.isSome || pRem.isSome
              then { p with assigneeIndexSequence := p.assigneeIndexSequence + 1 }
              else p) ∧
      ((pAdd.isSome || pRem.isSome) = true ↔
        (∃ x, a = some x ∧ alookup x counts = some 1) ∨
        (∃ x, r = some x ∧ alookup x counts = some 0)) := by
  intro counts pAdd pRem hcounts hpA hpR
  obtain ⟨index1, happ⟩ := applyAssigneeDelta_out (a := a) (r := r) hcov
  rw [← hcounts] at happ
  rw [← hpA, ← hpR] at happ
  have hpmem := getTask_mem hp
  have hiff : (pAdd.isSome || pRem.isSome) = true ↔
      (∃ x, a = some x ∧ alookup x counts = some 1) ∨
      (∃ x, r = some x ∧ alookup x counts = some 0) := by
    constructor
    · intro hsome
      rcases Bool.or_eq_true_iff.mp hsome with hs | hs
      · obtain ⟨x, hx⟩ := Option.isSome_iff_exists.mp hs
        rw [hpA] at hx
        obtain ⟨y, hy, hfy⟩ := Option.bind_eq_some.mp hx
        left
        refine ⟨y, hy, ?_⟩
        by_cases hly : alookup y counts = some 1
        · exact hly
        · rw [if_neg hly] at hfy; exact absurd hfy (by simp)
      · obtain ⟨x, hx⟩ := Option.isSome_iff_exists.mp hs
        rw [hpR] at hx
        obtain ⟨y, hy, hfy⟩ := Option.bind_eq_some.mp hx
        right
        refine ⟨y, hy, ?_⟩
        by_cases hly : alookup y counts = some 0
        · exact hly
        · rw [if_neg hly] at hfy; exact absurd hfy (by simp)
    · intro hex
      rcases hex with ⟨x, hx, hlx⟩ | ⟨x, hx, hlx⟩
      · have : pAdd = some x := by rw [hpA, hx]; simp [hlx]
        rw [this]; simp
      · have : pRem = some x := by rw [hpR, hx]; simp [hlx]
        rw [this]; simp
  by_cases hpp : pAdd = pRem
  · -- both propagated values are none: no enqueue, parent untouched
    have hnone : pAdd = none ∧ pRem = none := by
      cases hA : pAdd with
      | none =>
        refine ⟨rfl, ?_⟩
        rw [hA] at hpp; exact hpp.symm
      | some x =>
        exfalso
        have hRx : pRem = some x := by rw [← hpp, hA]
        rw [hpA] at hA
        rw [hpR] at hRx
        obtain ⟨y, hy, hfy⟩ := Option.bind_eq_some.mp hA
        obtain ⟨z, hz, hfz⟩ := Option.bind_eq_some.mp hRx
        have hyx : y = x := by
          by_cases hc : alookup y counts = some 1
          · rw [if_pos hc] at hfy; exact Option.some.inj hfy
          · rw [if_neg hc] at hfy; exact absurd hfy (by simp)
        have hzx : z = x := by
          by_cases hc : alookup z counts = some 0
          · rw [if_pos hc] at hfz; exact Option.some.inj hfz
          · rw [if_neg hc] at hfz; exact absurd hfz (by simp)
        rw [hyx] at hy
        rw [hzx] at hz
        rw [hy, hz] at hne
        exact hne rfl
    have hch : (pAdd.isSome || pRem.isSome) = false := by
      rw [hnone.1, hnone.2]; rfl
    refine ⟨?_, ?_, ?_, hiff⟩ <;>
      simp only [updateAssigneeIndexPost, ht, hidx, Option.getD_some, lt_irrefl,
        if_neg hne] <;>
      rw [happ] <;>
      simp [hpt, hp, queue_assignee_worker, hpp, hch, hnone.1, hnone.2]
  · -- a membership transition: delta enqueued, parent counter advanced
    have hch : (pAdd.isSome || pRem.isSome) = true := by
      cases hA : pAdd with
      | some x => rfl
      | none =>
        cases hR : pRem with
        | some x => rfl
        | none => exact absurd (hA.trans hR.symm) hpp
    obtain ⟨q, hq⟩ : ∃ q : Task,
        q = { p with assigneeIndexSequence := p.assigneeIndexSequence + 1 } := ⟨_, rfl⟩
    have hself : getTask (putTask st.tasks q) dom (some pid) = some q := by
      rw [hq, ← hpmem.2.1, ← hpmem.2.2]
      exact getTask_putTask_self hWF hpmem.1 rfl rfl
    refine ⟨?_, ?_, ?_, hiff⟩ <;>
      simp only [updateAssigneeIndexPost, ht, hidx, Option.getD_some, lt_irrefl,
        if_neg hne] <;>
      rw [happ] <;>
      simp only [hpt, hp, queue_assignee_worker, if_neg hpp, hch, if_true] <;>
      simp [hch, ← hq, hself]

/-- Witness for C5: a delta replacing assignee 7 (count 1 to 0) by
assignee 8 (count 0 to 1) at task 2 transitions both memberships, so a
delta carrying both propagated assignees and the parent's counter value
0 is enqueued for parent task 1, whose counter advances to 1. -/
theorem assignee_delta_parent_enqueue_iff_transition_witness :
    (updateAssigneeIndexPost
        { tasks := [{ id := 2, domain := 0, description := "t", userId := 1,
                      assignee := some 7, parentTask := some 1, completed := false,
                      numberOfSubtasks := 0, remainingSubtasks := 0, level := 1,
                      assigneeIndexSequence := 6 },
                    { id := 1, domain := 0, description := "p", userId := 1,
                      assignee := none, parentTask := none, completed := false,
                      numberOfSubtasks := 1, remainingSubtasks := 1, level := 0,
                      assigneeIndexSequence := 0 }],
          taskIndices := [], assigneeIndices := [(2, { sequence := 5, referenceCounts := [(7, 1)], assignees := [7], assigneeCount := 1 })],
          assigneeQueue := [], hierQueue := [], bakeQueue := [] }
        ⟨0, 2, 5, some 8, some 7⟩).1 = .applied true ∧
    (updateAssigneeIndexPost
        { tasks := [{ id := 2, domain := 0, description := "t", userId := 1,
                      assignee := some 7, parentTask := some 1, completed := false,
                      numberOfSubtasks := 0, remainingSubtasks := 0, level := 1,
                      assigneeIndexSequence := 6 },
                    { id := 1, domain := 0, description := "p", userId := 1,
                      assignee := none, parentTask := none, completed := false,
                      numberOfSubtasks := 1, remainingSubtasks := 1, level := 0,
                      assigneeIndexSequence := 0 }],
          taskIndices := [], assigneeIndices := [(2, { sequence := 5, referenceCounts := [(7, 1)], assignees := [7], assigneeCount := 1 })],
          assigneeQueue := [], hierQueue := [], bakeQueue := [] }
        ⟨0, 2, 5, some 8, some 7⟩).2.assigneeQueue =
      [{ domain := 0, taskId := 1, sequence := 0,
         addAssignee := some 8, removeAssignee := some 7 }] ∧
    getTask (updateAssigneeIndexPost
        { tasks := [{ id := 2, domain := 0, description := "t", userId := 1,
                      assignee := some 7, parentTask := some 1, completed := false,
                      numberOfSubtasks := 0, remainingSubtasks := 0, level := 1,
                      assigneeIndexSequence := 6 },
                    { id := 1, domain := 0, description := "p", userId := 1,
                      assignee := none, parentTask := none, completed := false,
                      numberOfSubtasks := 1, remainingSubtasks := 1, level := 0,
                      assigneeIndexSequence := 0 }],
          taskIndices := [], assigneeIndices := [(2, { sequence := 5, referenceCounts := [(7, 1)], assignees := [7], assigneeCount := 1 })],
          assigneeQueue := [], hierQueue := [], bakeQueue := [] }
        ⟨0, 2, 5, some 8, some 7⟩).2.tasks 0 (some 1) =
      some { id := 1, domain := 0, description := "p", userId := 1,
             assignee := none, parentTask := none, completed := false,
             numberOfSubtasks := 1, remainingSubtasks := 1, level := 0,
             assigneeIndexSequence := 1 } := by
  have h := assignee_delta_parent_enqueue_iff_transition
    { tasks := [{ id := 2, domain := 0, description := "t", userId := 1,
                  assignee := some 7, parentTask := some 1, completed := false,
                  numberOfSubtasks := 0, remainingSubtasks := 0, level := 1,
                  assigneeIndexSequence := 6 },
                { id := 1, domain := 0, description := "p", userId := 1,
                  assignee := none, parentTask := none, completed := false,
                  numberOfSubtasks := 1, remainingSubtasks := 1, level := 0,
                  assigneeIndexSequence := 0 }],
      taskIndices := [], assigneeIndices := [(2, { sequence := 5, referenceCounts := [(7, 1)], assignees := [7], assigneeCount := 1 })],
      assigneeQueue := [], hierQueue := [], bakeQueue := [] }
    0 2 1
    { id := 2, domain := 0, description := "t", userId := 1,
      assignee := some 7, parentTask := some 1, completed := false,
      numberOfSubtasks := 0, remainingSubtasks := 0, level := 1,
      assigneeIndexSequence := 6 }
    { id := 1, domain := 0, description := "p", userId := 1,
      assignee := none, parentTask := none, completed := false,
      numberOfSubtasks := 1, remainingSubtasks := 1, level := 0,
      assigneeIndexSequence := 0 }
    { sequence := 5, referenceCounts := [(7, 1)], assignees := [7], assigneeCount := 1 }
    (some 8) (some 7)
    (by unfold WF; decide) (by decide) (by decide) (by decide) rfl
    (by
      intro u c hc
      simp only [alookup] at hc
      by_cases h7 : (7 : Nat) = u
      · simp [← h7]
      · rw [if_neg h7] at hc
        exact absurd hc (by simp))
    (by decide)
    [(7, 0), (8, 1)] (some 8) (some 7)
    (by decide) (by decide) (by decide)
  exact ⟨h.1, h.2.1, h.2.2.1⟩

end Sps
